import Mathlib

/-!
Shallow embedding of `src/mido/messages.py` (a Python 2 module): the MIDI
message type registry, the `Message` entity with validated attribute writes,
the wire encoder, and the text codec.

Modelling conventions:
* Python values that occur as message field values are modelled by `PyValue`:
  integers, floats (as rationals) and sequences (lists/tuples collapse to one
  constructor, since the module only ever distinguishes them by converting to
  a tuple, which is the identity here).
* Python exceptions raised by the module are modelled by `PyError`, keeping
  the distinction TypeError / ValueError / AttributeError and the message
  string (Python 2's `exception.message`).
* Fallible operations return `Except PyError _`; a raised exception carries
  no object, which models Python's behaviour that a failed write or failed
  construction leaves no new state visible to the caller.
* Python strings are processed as `List Char` (Python strings are character
  sequences); `String` appears only at the outermost API.
-/

namespace Mido

/-- A Python value as used for message fields: an int, a float
(modelled as a rational), or a sequence of values. -/
inductive PyValue where
  | int (i : Int)
  | float (q : Rat)
  | list (elems : List PyValue)

mutual

/-- Boolean equality on `PyValue` (structural; element-wise on sequences). -/
def PyValue.beq : PyValue → PyValue → Bool
  | .int a, .int b => a == b
  | .float a, .float b => a == b
  | .list as, .list bs => PyValue.beqList as bs
  | _, _ => false

/-- Element-wise boolean equality on `PyValue` sequences. -/
def PyValue.beqList : List PyValue → List PyValue → Bool
  | [], [] => true
  | a :: as, b :: bs => PyValue.beq a b && PyValue.beqList as bs
  | _, _ => false

end

mutual

/-- `PyValue.beq` decides equality. -/
def PyValue.beq_ok : ∀ a b : PyValue, PyValue.beq a b = true ↔ a = b
  | .int a, .int b => by simp [PyValue.beq]
  | .int _, .float _ => by simp [PyValue.beq]
  | .int _, .list _ => by simp [PyValue.beq]
  | .float _, .int _ => by simp [PyValue.beq]
  | .float a, .float b => by simp [PyValue.beq]
  | .float _, .list _ => by simp [PyValue.beq]
  | .list _, .int _ => by simp [PyValue.beq]
  | .list _, .float _ => by simp [PyValue.beq]
  | .list as, .list bs => by
    rw [show PyValue.beq (.list as) (.list bs) = PyValue.beqList as bs from rfl,
      PyValue.beqList_ok as bs]
    simp

/-- `PyValue.beqList` decides equality of sequences. -/
def PyValue.beqList_ok : ∀ as bs : List PyValue, PyValue.beqList as bs = true ↔ as = bs
  | [], [] => by simp [PyValue.beqList]
  | [], _ :: _ => by simp [PyValue.beqList]
  | _ :: _, [] => by simp [PyValue.beqList]
  | a :: as, b :: bs => by
    rw [show PyValue.beqList (a :: as) (b :: bs) =
        (PyValue.beq a b && PyValue.beqList as bs) from rfl]
    rw [Bool.and_eq_true, PyValue.beq_ok a b, PyValue.beqList_ok as bs]
    simp

end

instance : DecidableEq PyValue :=
  fun a b => decidable_of_iff _ (PyValue.beq_ok a b)

/-- Decidable equality for `Except` results, for evaluating the embedding
on concrete inputs. -/
instance {ε α : Type} [DecidableEq ε] [DecidableEq α] : DecidableEq (Except ε α) :=
  fun a b =>
    match a, b with
    | .ok x, .ok y => decidable_of_iff (x = y) (by simp)
    | .error x, .error y => decidable_of_iff (x = y) (by simp)
    | .ok _, .error _ => .isFalse (fun h => Except.noConfusion h)
    | .error _, .ok _ => .isFalse (fun h => Except.noConfusion h)

/-- A Python exception as raised by the module: kind plus message string
(the Python 2 `.message` attribute). -/
inductive PyError where
  | typeError (msg : String)
  | valueError (msg : String)
  | attributeError (msg : String)
deriving DecidableEq

/-- Python 2 `exception.message`. -/
def PyError.message : PyError → String
  | .typeError m => m
  | .valueError m => m
  | .attributeError m => m

/-- Pitchwheel is a 14 bit signed integer (module constant). -/
def MIN_PITCHWHEEL : Int := -8192

/-- Module constant `MAX_PITCHWHEEL`. -/
def MAX_PITCHWHEEL : Int := 8191

/-- Song pos is a 14 bit unsigned integer (module constant). -/
def MIN_SONGPOS : Int := 0

/-- Module constant `MAX_SONGPOS`. -/
def MAX_SONGPOS : Int := 16383

/-- `MessageSpec(status_byte, type_, arguments, size)`.  The Python `size`
is an int for every type except sysex, where it is `float('inf')`; the
sentinel is modelled as `none`. -/
structure MessageSpec where
  status_byte : Nat
  type : String
  arguments : List String
  size : Option Nat
deriving DecidableEq

/-- `self.valid_attributes = set(self.arguments) | {'time'}` (membership in
this list models membership in the Python set). -/
def MessageSpec.valid_attributes (s : MessageSpec) : List String :=
  s.arguments ++ ["time"]

/-- The table built by `get_message_specs()`, verbatim from the source. -/
def get_message_specs : List MessageSpec :=
  [ -- Channel messages
    ⟨0x80, "note_off", ["channel", "note", "velocity"], some 3⟩,
    ⟨0x90, "note_on", ["channel", "note", "velocity"], some 3⟩,
    ⟨0xa0, "polytouch", ["channel", "note", "value"], some 3⟩,
    ⟨0xb0, "control_change", ["channel", "control", "value"], some 3⟩,
    ⟨0xc0, "program_change", ["channel", "program"], some 3⟩,
    ⟨0xd0, "aftertouch", ["channel", "value"], some 3⟩,
    ⟨0xe0, "pitchwheel", ["channel", "pitch"], some 3⟩,
    -- System common messages
    ⟨0xf0, "sysex", ["data"], none⟩,
    ⟨0xf1, "undefined_f1", [], some 1⟩,
    ⟨0xf2, "songpos", ["pos"], some 3⟩,
    ⟨0xf3, "song", ["song"], some 2⟩,
    ⟨0xf4, "undefined_f4", [], some 1⟩,
    ⟨0xf5, "undefined_f5", [], some 1⟩,
    ⟨0xf6, "tune_request", [], some 1⟩,
    ⟨0xf7, "sysex_end", [], some 1⟩,
    -- System realtime messages
    ⟨0xf8, "clock", [], some 1⟩,
    ⟨0xf9, "undefined_f9", [], some 1⟩,
    ⟨0xfa, "start", [], some 1⟩,
    ⟨0xfb, "continue", [], some 1⟩,
    ⟨0xfc, "stop", [], some 1⟩,
    ⟨0xfd, "undefined_fd", [], some 1⟩,
    ⟨0xfe, "active_sensing", [], some 1⟩,
    ⟨0xff, "reset", [], some 1⟩ ]

/-- A key of the `_spec_lookup` dict: a Python int (status byte) or a
string (type name). -/
inductive Key where
  | int (i : Int)
  | str (s : String)
deriving DecidableEq

/-- The entries inserted into `Message._spec_lookup` by the class-body loop:
for a channel spec (status byte below 0xf0) all 16 `status_byte | channel`
aliases, for a system spec the single status byte; and for every spec its
type name.  Key collisions do not occur, so an association list models the
dict. -/
def spec_entries : List (Key × MessageSpec) :=
  (get_message_specs.map (fun spec =>
    (if spec.status_byte < 0xf0 then
      (List.range 16).map (fun channel =>
        (Key.int (spec.status_byte ||| channel : Nat), spec))
    else
      [(Key.int spec.status_byte, spec)]) ++ [(Key.str spec.type, spec)])).flatten

/-- Dict lookup in `Message._spec_lookup`; `none` models `KeyError`. -/
def _spec_lookup (key : Key) : Option MessageSpec :=
  (spec_entries.find? (fun e => e.1 == key)).map (fun e => e.2)

/-- `check_time`: raises TypeError unless the value is an int or a float. -/
def check_time (time : PyValue) : Except PyError Unit :=
  match time with
  | .int _ => .ok ()
  | .float _ => .ok ()
  | _ => .error (.typeError "time must be an integer or float")

/-- `check_channel`: TypeError if not an int, ValueError if outside 0 .. 15. -/
def check_channel (channel : PyValue) : Except PyError Unit :=
  match channel with
  | .int c =>
    if 0 ≤ c ∧ c ≤ 15 then .ok ()
    else .error (.valueError "channel must be in range 0 .. 15")
  | _ => .error (.typeError "channel must be an integer")

/-- `check_pos`: TypeError if not an int, ValueError if outside
MIN_SONGPOS .. MAX_SONGPOS. -/
def check_pos (pos : PyValue) : Except PyError Unit :=
  match pos with
  | .int p =>
    if MIN_SONGPOS ≤ p ∧ p ≤ MAX_SONGPOS then .ok ()
    else .error (.valueError "song pos must be in range 0 .. 16383")
  | _ => .error (.typeError "song pos must be and integer")

/-- `check_pitch`: TypeError if not an int, ValueError if outside
MIN_PITCHWHEEL .. MAX_PITCHWHEEL. -/
def check_pitch (pitch : PyValue) : Except PyError Unit :=
  match pitch with
  | .int p =>
    if MIN_PITCHWHEEL ≤ p ∧ p ≤ MAX_PITCHWHEEL then .ok ()
    else .error (.valueError "pitchwheel value must be in range -8192 .. 8191")
  | _ => .error (.typeError "pichwheel value must be an integer")

/-- `check_databyte`: TypeError if not an int, ValueError if outside 0 .. 127. -/
def check_databyte (value : PyValue) : Except PyError Unit :=
  match value with
  | .int v =>
    if 0 ≤ v ∧ v ≤ 127 then .ok ()
    else .error (.valueError "data byte must be in range 0 .. 127")
  | _ => .error (.typeError "data byte must be an integer")

/-- `check_data`: `tuple(data_bytes)` raises TypeError on a non-sequence
(ints and floats are not iterable); then every byte is checked with
`check_databyte` and the (here already immutable) sequence is returned. -/
def check_data (data_bytes : PyValue) : Except PyError PyValue :=
  match data_bytes with
  | .list l => do
    l.forM check_databyte
    return .list l
  | _ => .error (.typeError "data must be iterable")

/-- Extract the int of a `PyValue`; message fields other than `data` and
`time` always hold ints after validation, so the default is never hit on a
validly constructed message. -/
def pyInt : PyValue → Int
  | .int i => i
  | _ => 0

/-- Extract the element list of a `PyValue` sequence (the `data` field). -/
def pyList : PyValue → List PyValue
  | .list l => l
  | _ => []

/-- `encode_channel`: contributes no bytes (channel lives in the status byte). -/
def encode_channel (_channel : PyValue) : List Int := []

/-- `encode_data`: the data bytes verbatim with the sysex end byte 0xf7
appended. -/
def encode_data (data : List PyValue) : List Int :=
  data.map pyInt ++ [0xf7]

/-- `encode_pitch`: shift by `MIN_PITCHWHEEL` then emit low 7 bits, then the
remaining high bits (Python `pitch & 0x7f`, `pitch >> 7`). -/
def encode_pitch (pitch : Int) : List Int :=
  let p := pitch - MIN_PITCHWHEEL
  [Int.land p 0x7f, Int.shiftRight p 7]

/-- `encode_pos`: low 7 bits then high bits, no offset. -/
def encode_pos (pos : Int) : List Int :=
  [Int.land pos 0x7f, Int.shiftRight pos 7]

/-- A `Message` object: its spec (stored by `_set('_spec', ...)`), its type
name (stored by `_set('type', ...)`) and the rest of its `__dict__` as an
association list in insertion order. -/
structure Message where
  _spec : MessageSpec
  type : String
  dict : List (String × PyValue)
deriving DecidableEq

/-- Python `getattr(message, name)` for the field entries of `__dict__`.
Every name this is applied to is present on a constructed message, so the
default value is never observable there. -/
def Message.getattr (m : Message) (name : String) : PyValue :=
  ((m.dict.find? (fun p => p.1 == name)).map (fun p => p.2)).getD (.int 0)

/-- Store into the `__dict__`: update the entry in place if the key exists,
append it otherwise. -/
def dictSet : List (String × PyValue) → String → PyValue → List (String × PyValue)
  | [], name, v => [(name, v)]
  | (k, w) :: rest, name, v =>
    if k = name then (k, v) :: rest else (k, w) :: dictSet rest name v

/-- The validation that `Message.__setattr__` performs for a name in
`valid_attributes`: the `check_<name>` function found in the module globals
(`check_time`, `check_channel`, `check_pos`, `check_pitch`, `check_data`;
every other field name misses the lookup and falls back to
`check_databyte`), returning the value to be stored — the check's return
value (the tuple) for `data`, the written value itself otherwise. -/
def check_for (name : String) (value : PyValue) : Except PyError PyValue :=
  if name = "time" then (check_time value).map (fun _ => value)
  else if name = "channel" then (check_channel value).map (fun _ => value)
  else if name = "pos" then (check_pos value).map (fun _ => value)
  else if name = "pitch" then (check_pitch value).map (fun _ => value)
  else if name = "data" then check_data value
  else (check_databyte value).map (fun _ => value)

/-- `Message.__setattr__`: a name in `valid_attributes` is validated by its
check function and then stored.  A name outside `valid_attributes` raises
AttributeError: "read only" if it is already in `__dict__` (which always
holds `type` and `_spec`, stored by `_set`), "has no attribute" otherwise. -/
def Message.setattr (m : Message) (name : String) (value : PyValue) :
    Except PyError Message :=
  if name ∈ m._spec.valid_attributes then
    (check_for name value).map (fun ret => { m with dict := dictSet m.dict name ret })
  else if name = "type" ∨ name = "_spec" ∨ m.dict.any (fun p => p.1 == name) then
    .error (.attributeError (name ++ " attribute is read only"))
  else
    .error (.attributeError (m.type ++ " message has no attribute " ++ name))

/-- One iteration of the default-setting loop of `Message.__init__`:
`data` defaults to the empty tuple; `channel` defaults to `type_ & 0x0f`
when the constructor key was an int, else 0; every other field to 0. -/
def Message.default_field (type_ : Key) (m : Message) (name : String) :
    Except PyError Message :=
  if name = "data" then
    m.setattr "data" (.list [])
  else if name = "channel" then
    match type_ with
    | .int i => m.setattr "channel" (.int (Int.land i 0x0f))
    | .str _ => m.setattr "channel" (.int 0)
  else
    m.setattr name (.int 0)

/-- One iteration of the keyword-argument loop of `Message.__init__`: a
validated write, with an AttributeError re-raised as ValueError "invalid
keyword argument". -/
def Message.initStep (m : Message) (nv : String × PyValue) : Except PyError Message :=
  match m.setattr nv.1 nv.2 with
  | .ok m2 => .ok m2
  | .error (.attributeError _) =>
    .error (.valueError (nv.1 ++ " is an invalid keyword argument for this message type"))
  | .error e => .error e

/-- `Message.__init__(type_, **arguments)`: resolve the spec (ValueError on
an unknown key), set defaults for every spec argument in order, set `time`
to 0 bypassing checks (`_set`), then apply the keyword arguments as
validated writes.  Keyword arguments are modelled as an association list in
iteration order. -/
def Message.init (type_ : Key) (arguments : List (String × PyValue)) :
    Except PyError Message :=
  match _spec_lookup type_ with
  | none => .error (.valueError "is an invalid type name or status byte")
  | some spec =>
    (spec.arguments.foldlM (Message.default_field type_)
        { _spec := spec, type := spec.type, dict := [] }).bind
      (fun m => arguments.foldlM Message.initStep
        { m with dict := dictSet m.dict "time" (.int 0) })

/-- `Message.copy(**overrides)`: take each of the spec's arguments plus
`time` from `overrides` when present, else from the message, and construct
a fresh message of the same type; keys of `overrides` outside that set are
never consulted. -/
def Message.copy (m : Message) (overrides : List (String × PyValue)) :
    Except PyError Message :=
  let arguments := (m._spec.arguments ++ ["time"]).map (fun name =>
    match overrides.find? (fun p => p.1 == name) with
    | some p => (name, p.2)
    | none => (name, m.getattr name))
  Message.init (Key.str m.type) arguments

/-- `Message._get_status_byte`: the spec's status byte, with the channel
OR-ed into the low 4 bits for channel messages. -/
def Message.status_byte (m : Message) : Int :=
  let byte : Int := m._spec.status_byte
  if m._spec.status_byte < 0xf0 then
    Int.lor byte (pyInt (m.getattr "channel"))
  else
    byte

/-- `Message.bytes()`: the status byte followed by, per spec argument in
order, the bytes produced by the `encode_<name>` function found in the
module globals (`encode_channel`, `encode_data`, `encode_pitch`,
`encode_pos`), or the field value itself as a single byte when the lookup
misses. -/
def Message.bytes (m : Message) : List Int :=
  m.status_byte :: (m._spec.arguments.map (fun name =>
    let value := m.getattr name
    if name = "channel" then encode_channel value
    else if name = "data" then encode_data (pyList value)
    else if name = "pitch" then encode_pitch (pyInt value)
    else if name = "pos" then encode_pos (pyInt value)
    else [pyInt value])).flatten

/-- The comparison key of `Message.__eq__`: the type name and the values of
the spec's arguments in order (`time` excluded). -/
def Message.eqKey (m : Message) : String × List PyValue :=
  (m.type, m._spec.arguments.map (fun name => m.getattr name))

/-- The state invariant of a constructed message: its spec is one of the
registered specs, its type name matches, its `__dict__` holds exactly the
spec's arguments followed by `time` (defaults are written in that order and
later writes only update in place), and every stored value passes (and is
fixed by) its field's check. -/
def Message.WF (m : Message) : Prop :=
  m._spec ∈ get_message_specs ∧
  m.type = m._spec.type ∧
  m.dict.map Prod.fst = m._spec.arguments ++ ["time"] ∧
  ∀ p ∈ m.dict, check_for p.1 p.2 = .ok p.2

/-- The int under an int key. -/
def Key.intVal : Key → Option Int
  | .int i => some i
  | .str _ => none

/-- The string under a string key. -/
def Key.strName : Key → Option String
  | .int _ => none
  | .str s => some s

/-! ### Text codec

Strings are processed as `List Char`.  `pySplitWs` models Python's
`str.split()` (split on whitespace runs, no empty words), `pySplitOn`
models `str.split(sep)` (keeps empty pieces), `pyStrip` models
`str.strip()`. -/

/-- One step of `pySplitWs`, consumed by `List.foldr`: state is the word
currently being read (to the right) and the finished words after it. -/
def splitWsStep (c : Char) : List Char × List (List Char) → List Char × List (List Char)
  | (cur, acc) =>
    if c.isWhitespace then ([], if cur.isEmpty then acc else cur :: acc)
    else (c :: cur, acc)

/-- Python `text.split()`: the maximal whitespace-free words, in order. -/
def pySplitWs (l : List Char) : List (List Char) :=
  let r := l.foldr splitWsStep ([], [])
  if r.1.isEmpty then r.2 else r.1 :: r.2

/-- Python `text.split(sep)` for a one-character separator: cut at every
occurrence, keeping empty pieces (so the result is never empty). -/
def pySplitOn (sep : Char) (l : List Char) : List (List Char) :=
  let r := l.foldr (fun c (p : List Char × List (List Char)) =>
    if c = sep then ([], p.1 :: p.2) else (c :: p.1, p.2)) ([], [])
  r.1 :: r.2

/-- Python `text.strip()`: drop whitespace from both ends. -/
def pyStrip (l : List Char) : List Char :=
  ((l.dropWhile Char.isWhitespace).reverse.dropWhile Char.isWhitespace).reverse

/-- The decimal digit character for `n < 10`. -/
def digitChar (n : Nat) : Char := Char.ofNat (48 + n)

/-- Decimal rendering of a natural number (Python `str(n)` for `n ≥ 0`). -/
def natRepr (n : Nat) : List Char :=
  if _h : n < 10 then [digitChar n]
  else natRepr (n / 10) ++ [digitChar (n % 10)]
termination_by n
decreasing_by exact Nat.div_lt_self (by omega) (by omega)

/-- Python `str(i)` for an int: optional minus sign, then decimal digits. -/
def intRepr : Int → List Char
  | .ofNat n => natRepr n
  | .negSucc n => '-' :: natRepr (n + 1)

/-- Value of a nonempty all-digit string, `none` on a non-digit or on the
empty string. -/
def parseDigits (l : List Char) : Option Nat :=
  match l with
  | [] => none
  | _ => l.foldl (fun acc c =>
      acc.bind (fun a => if c.isDigit then some (10 * a + (c.toNat - 48)) else none))
      (some 0)

/-- Python `int(text)` on a whitespace-free token: optional sign followed by
decimal digits. -/
def pyParseInt (l : List Char) : Option Int :=
  match l with
  | '-' :: rest => (parseDigits rest).map (fun n => -(n : Int))
  | '+' :: rest => (parseDigits rest).map (fun n => (n : Int))
  | _ => (parseDigits l).map (fun n => (n : Int))

/-- Digit-string value where the empty string counts as 0 (for the integer
or fractional part of a float literal, either of which may be absent). -/
def digitsOpt (l : List Char) : Option Nat :=
  if l.all Char.isDigit then
    some (l.foldl (fun a c => 10 * a + (c.toNat - 48)) 0)
  else none

/-- Python `float(text)` on the decimal literals the module can meet:
optional sign, then digits with an optional fractional part (at least one
digit overall).  Exponent, `inf` and `nan` forms are not modelled; a token
in one of those forms is treated as a non-number. -/
def pyParseFloat (l : List Char) : Option Rat :=
  let mag : List Char → Option Rat := fun l =>
    match pySplitOn '.' l with
    | [ip] => (parseDigits ip).map (fun n => (n : Rat))
    | [ip, fp] =>
      if ip.isEmpty ∧ fp.isEmpty then none
      else do
        let i ← digitsOpt ip
        let f ← digitsOpt fp
        return (i : Rat) + (f : Rat) / ((10 : Rat) ^ fp.length)
    | _ => none
  match l with
  | '-' :: rest => (mag rest).map (fun q => -q)
  | '+' :: rest => mag rest
  | _ => mag l

/-- `text_parse_number`: try `int(text)`, then `float(text)`, else `None`. -/
def text_parse_number (text : List Char) : Option PyValue :=
  match pyParseInt text with
  | some i => some (.int i)
  | none => (pyParseFloat text).map .float

/-- Python truthiness of the values in play (`if time:`). -/
def pyTruthy : PyValue → Bool
  | .int i => i != 0
  | .float q => q != 0
  | .list l => !l.isEmpty

/-- Rendering of a field value inside `text_format` (`'{}'.format(value)`);
fields other than `data` hold ints on a validly constructed message.  Float
rendering (reachable only for a float `time` under `include_time=True`) is
not modelled. -/
def pyStr : PyValue → List Char
  | .int i => intRepr i
  | _ => []

/-- `' '.join(words)`. -/
def joinSpace : List (List Char) → List Char
  | [] => []
  | [w] => w
  | w :: rest => w ++ ' ' :: joinSpace rest

/-- `','.join(pieces)`. -/
def commaJoin : List (List Char) → List Char
  | [] => []
  | [p] => p
  | p :: rest => p ++ ',' :: commaJoin rest

/-- `text_format(message, include_time=False)`: the optional time, the type
name, then `name=value` per spec argument in order, with `data` rendered as
a parenthesized comma-joined list; all space-joined. -/
def text_format (m : Message) (include_time : Bool := false) : String :=
  let words : List (List Char) :=
    (if include_time then [pyStr (m.getattr "time")] else []) ++
    [m.type.data] ++
    m._spec.arguments.map (fun name =>
      let value := m.getattr name
      if name = "data" then
        name.data ++ '=' ::
          ('(' :: commaJoin ((pyList value).map (fun b => intRepr (pyInt b))) ++ [')'])
      else
        name.data ++ '=' :: pyStr value)
  String.mk (joinSpace words)

/-- The argument loop of `text_parse`: split each token at `=`, reject
duplicates, and apply the `data` branch (with the source's parenthesis test
written exactly as in the source: `not value.startswith('(') and
value.endswith(')')`) or the generic `int(value)` branch, where only the
generic branch converts an `AttributeError` from `setattr` into a
`ValueError`. -/
def text_parse_args : Message → List String → List (List Char) → Except PyError Message
  | m, _, [] => .ok m
  | m, seen, arg :: rest =>
    match pySplitOn '=' arg with
    | [name, value] =>
      let nameS := String.mk name
      if nameS ∈ seen then
        .error (.valueError "argument passed more than once")
      else if nameS = "data" then
        if ¬(value.head? = some '(') ∧ value.getLast? = some ')' then
          .error (.valueError "missing parentheses in data message")
        else
          match ((pySplitOn ',' ((value.drop 1).dropLast)).mapM pyParseInt) with
          | none => .error (.valueError "unable to parse data bytes")
          | some ds =>
            match m.setattr "data" (.list (ds.map PyValue.int)) with
            | .ok m2 => text_parse_args m2 (nameS :: seen) rest
            | .error e => .error e
      else
        match pyParseInt value with
        | none => .error (.valueError ("invalid literal for int with base 10: " ++ String.mk value))
        | some i =>
          match m.setattr nameS (.int i) with
          | .ok m2 => text_parse_args m2 (nameS :: seen) rest
          | .error (.attributeError msg) => .error (.valueError msg)
          | .error e => .error e
    | _ => .error (.valueError "missing or extraneous equals sign")

/-- `text_parse` after tokenization: construct the message from the type
word, apply the consumed leading time only when truthy, then run the
argument loop. -/
def text_parse_body (typeWord : List Char) (args : List (List Char))
    (time? : Option PyValue) : Except PyError Message := do
  let message ← Message.init (Key.str (String.mk typeWord)) []
  let message ←
    match time? with
    | some t => if pyTruthy t then message.setattr "time" t else .ok message
    | none => .ok message
  text_parse_args message [] args

/-- `text_parse(text)` on the character list: split into words; an empty
text is a ValueError; a leading word that parses as a number is consumed as
the time (requiring at least one more word). -/
def text_parse_chars (text : List Char) : Except PyError Message :=
  match pySplitWs text with
  | [] => .error (.valueError "string is empty")
  | w0 :: rest =>
    match text_parse_number w0 with
    | some t =>
      match rest with
      | [] => .error (.valueError "no message found after number")
      | w1 :: args => text_parse_body w1 args (some t)
    | none => text_parse_body w0 rest none

/-- `text_parse(text)`. -/
def text_parse (text : String) : Except PyError Message :=
  text_parse_chars text.data

/-- `text_parse_stream`, line numbers starting at `line_number`: per line,
drop everything from the first `#`, strip, skip empty lines, and parse,
yielding `(message, None)` or, for a ValueError, `(None, "line <n>: <msg>")`.
The loop catches only ValueError; any other exception terminates the
generator after the results yielded so far, which the second component of
the result records.  The source's call to the (here undefined) name `parse`
is modelled from the spec as the text line parser `text_parse`. -/
def text_parse_stream_aux (line_number : Nat) :
    List String → List (Option Message × Option String) × Option PyError
  | [] => ([], none)
  | line :: rest =>
    let stripped := pyStrip (pySplitOn '#' line.data).headI
    if stripped.isEmpty then
      text_parse_stream_aux (line_number + 1) rest
    else
      match text_parse_chars stripped with
      | .ok m =>
        let r := text_parse_stream_aux (line_number + 1) rest
        ((some m, none) :: r.1, r.2)
      | .error (.valueError msg) =>
        let r := text_parse_stream_aux (line_number + 1) rest
        ((none, some ("line " ++ toString line_number ++ ": " ++ msg)) :: r.1, r.2)
      | .error e => ([], some e)

/-- `text_parse_stream(stream)` over a finite list of lines, 1-based line
numbers.  The first component is the yielded sequence; the second is the
exception, if any, that escaped the generator (Python's `except ValueError`
does not catch it) and cut the stream short. -/
def text_parse_stream (stream : List String) :
    List (Option Message × Option String) × Option PyError :=
  text_parse_stream_aux 1 stream

/-! ### Dictionary and attribute-write lemmas -/

theorem dictSet_cons_self (k : String) (w : PyValue) (tail : List (String × PyValue))
    (v : PyValue) : dictSet ((k, w) :: tail) k v = (k, v) :: tail := by
  simp [dictSet]

theorem dictSet_cons_ne (k : String) (w : PyValue) (tail : List (String × PyValue))
    (n : String) (v : PyValue) (hk : k ≠ n) :
    dictSet ((k, w) :: tail) n v = (k, w) :: dictSet tail n v := by
  simp [dictSet, hk]

theorem dictSet_find_self (d : List (String × PyValue)) (n : String) (v : PyValue) :
    (dictSet d n v).find? (fun p => p.1 == n) = some (n, v) := by
  induction d with
  | nil => simp [dictSet]
  | cons head tail ih =>
    obtain ⟨k, w⟩ := head
    by_cases hk : k = n
    · subst hk
      simp [dictSet, List.find?]
    · simp [dictSet, hk, List.find?, ih]

theorem dictSet_find_ne (d : List (String × PyValue)) (n : String) (v : PyValue)
    (n' : String) (h : n' ≠ n) :
    (dictSet d n v).find? (fun p => p.1 == n') = d.find? (fun p => p.1 == n') := by
  induction d with
  | nil =>
    show List.find? _ [(n, v)] = _
    rw [List.find?_cons_of_neg _ (by simpa using Ne.symm h), List.find?_nil]
  | cons head tail ih =>
    obtain ⟨k, w⟩ := head
    by_cases hk : k = n
    · subst hk
      rw [dictSet_cons_self]
      by_cases hk' : k = n'
      · exact absurd (hk'.symm.trans rfl) h
      · rw [List.find?_cons_of_neg _ (by simp [hk']),
          List.find?_cons_of_neg _ (by simp [hk'])]
    · rw [dictSet_cons_ne _ _ _ _ _ hk]
      by_cases hk' : k = n'
      · subst hk'
        rw [List.find?_cons_of_pos _ (by simp), List.find?_cons_of_pos _ (by simp)]
      · rw [List.find?_cons_of_neg _ (by simp [hk']),
          List.find?_cons_of_neg _ (by simp [hk']), ih]

theorem dictSet_keys_of_mem (d : List (String × PyValue)) (n : String) (v : PyValue)
    (h : n ∈ d.map Prod.fst) :
    (dictSet d n v).map Prod.fst = d.map Prod.fst := by
  induction d with
  | nil => simp at h
  | cons head tail ih =>
    obtain ⟨k, w⟩ := head
    by_cases hk : k = n
    · subst hk
      simp [dictSet]
    · simp only [List.map_cons, List.mem_cons] at h
      rcases h with h | h

      · exact absurd h.symm hk
      · simp [dictSet, hk, ih h]

theorem mem_dictSet (d : List (String × PyValue)) (n : String) (v : PyValue) :
    ∀ p ∈ dictSet d n v, p = (n, v) ∨ p ∈ d := by
  induction d with
  | nil => simp [dictSet]
  | cons head tail ih =>
    obtain ⟨k, w⟩ := head
    intro p hp
    by_cases hk : k = n
    · subst hk
      rw [dictSet_cons_self] at hp
      rcases List.mem_cons.mp hp with hp | hp
      · exact Or.inl hp
      · exact Or.inr (List.mem_cons_of_mem _ hp)
    · rw [dictSet_cons_ne _ _ _ _ _ hk] at hp
      rw [List.mem_cons] at hp
      rcases hp with hp | hp
      · exact Or.inr (by simp [hp])
      · rcases ih p hp with h | h
        · exact Or.inl h
        · exact Or.inr (List.mem_cons_of_mem _ h)

theorem Message.getattr_mk (sp : MessageSpec) (t : String)
    (d : List (String × PyValue)) (n : String) :
    Message.getattr ⟨sp, t, d⟩ n = ((d.find? (fun p => p.1 == n)).map Prod.snd).getD (.int 0) :=
  rfl

/-- A successful `setattr` is exactly: the name is a valid attribute, its
check succeeded, and the returned value was stored. -/
theorem Message.setattr_ok_iff (m : Message) (name : String) (value : PyValue)
    (m2 : Message) :
    m.setattr name value = .ok m2 ↔
      name ∈ m._spec.valid_attributes ∧
      ∃ ret, check_for name value = .ok ret ∧
        m2 = { m with dict := dictSet m.dict name ret } := by
  by_cases hv : name ∈ m._spec.valid_attributes
  · cases hc : check_for name value with
    | ok ret => simp [Message.setattr, hv, hc, Except.map, eq_comm]
    | error e => simp [Message.setattr, hv, hc, Except.map]
  · simp only [Message.setattr, if_neg hv]
    split <;> simp [hv]

theorem Message.setattr_spec_eq (m : Message) (name : String) (value : PyValue)
    (m2 : Message) (h : m.setattr name value = .ok m2) :
    m2._spec = m._spec ∧ m2.type = m.type := by
  rw [Message.setattr_ok_iff] at h
  obtain ⟨-, ret, -, rfl⟩ := h
  exact ⟨rfl, rfl⟩

theorem Message.setattr_getattr_self (m : Message) (name : String) (value : PyValue)
    (m2 : Message) (h : m.setattr name value = .ok m2)
    (ret : PyValue) (hc : check_for name value = .ok ret) :
    m2.getattr name = ret := by
  rw [Message.setattr_ok_iff] at h
  obtain ⟨-, ret', hc', rfl⟩ := h
  rw [hc] at hc'
  obtain rfl : ret = ret' := by injection hc'
  show ((((dictSet m.dict name ret).find? (fun p => p.1 == name)).map Prod.snd).getD (.int 0)) = ret
  rw [dictSet_find_self]
  rfl

theorem Message.setattr_getattr_ne (m : Message) (name : String) (value : PyValue)
    (m2 : Message) (h : m.setattr name value = .ok m2)
    (n' : String) (hne : n' ≠ name) :
    m2.getattr n' = m.getattr n' := by
  rw [Message.setattr_ok_iff] at h
  obtain ⟨-, ret, -, rfl⟩ := h
  show ((((dictSet m.dict name ret).find? (fun p => p.1 == n')).map Prod.snd).getD (.int 0)) = _
  rw [dictSet_find_ne _ _ _ _ hne]
  rfl

/-- `Message.initStep` succeeds exactly when the underlying `setattr` does,
with the same result. -/
theorem Message.initStep_ok_iff (m : Message) (nv : String × PyValue) (m2 : Message) :
    m.initStep nv = .ok m2 ↔ m.setattr nv.1 nv.2 = .ok m2 := by
  unfold Message.initStep
  cases h : m.setattr nv.1 nv.2 with
  | ok m3 => simp
  | error e => cases e <;> simp

theorem map_const_ok {e : Except PyError Unit} {value ret : PyValue}
    (h : e.map (fun _ => value) = .ok ret) : ret = value := by
  cases e with
  | error err => simp [Except.map] at h
  | ok u =>
    simp only [Except.map] at h
    exact (Except.ok.inj h).symm

/-- A successful check returns the written value itself (also for `data`:
the sequence is already immutable in the model). -/
theorem check_for_ok_eq (name : String) (value ret : PyValue)
    (h : check_for name value = .ok ret) : ret = value := by
  unfold check_for at h
  split at h
  · exact map_const_ok h
  · split at h
    · exact map_const_ok h
    · split at h
      · exact map_const_ok h
      · split at h
        · exact map_const_ok h
        · split at h
          · cases value with
            | list l =>
              simp only [check_data] at h
              cases hf : l.forM check_databyte with
              | ok u =>
                rw [hf] at h
                simp only [Bind.bind, Except.bind, Pure.pure, Except.pure] at h
                exact (Except.ok.inj h).symm
              | error e => rw [hf] at h; simp [Bind.bind, Except.bind] at h
            | int i => simp [check_data] at h
            | float q => simp [check_data] at h
          · exact map_const_ok h

/-- The keyword-argument fold of `__init__` preserves the spec, the type and
the key set of the `__dict__`, and keeps every stored value check-fixed. -/
theorem initStep_fold_invariant :
    ∀ (args : List (String × PyValue)) (m m2 : Message),
    args.foldlM Message.initStep m = .ok m2 →
    (∀ n ∈ m._spec.valid_attributes, n ∈ m.dict.map Prod.fst) →
    (∀ p ∈ m.dict, check_for p.1 p.2 = .ok p.2) →
    m2._spec = m._spec ∧ m2.type = m.type ∧
      m2.dict.map Prod.fst = m.dict.map Prod.fst ∧
      ∀ p ∈ m2.dict, check_for p.1 p.2 = .ok p.2
  | [], m, m2, h, _hkeys, hvals => by
    simp only [List.foldlM] at h
    obtain rfl : m = m2 := by injection h
    exact ⟨rfl, rfl, rfl, hvals⟩
  | nv :: rest, m, m2, h, hkeys, hvals => by
    simp only [List.foldlM] at h
    cases hs : Message.initStep m nv with
    | error e => rw [hs] at h; simp [Bind.bind, Except.bind] at h
    | ok m' =>
      rw [hs] at h
      simp only [Bind.bind, Except.bind] at h
      rw [Message.initStep_ok_iff, Message.setattr_ok_iff] at hs
      obtain ⟨hmem, ret, hc, rfl⟩ := hs
      have hretv := check_for_ok_eq _ _ _ hc
      subst hretv
      have hkeyset : (dictSet m.dict nv.1 nv.2).map Prod.fst = m.dict.map Prod.fst :=
        dictSet_keys_of_mem _ _ _ (hkeys _ hmem)
      have ih := initStep_fold_invariant rest _ m2 h
        (by intro n hn; rw [hkeyset]; exact hkeys n hn)
        (by
          intro p hp
          rcases mem_dictSet _ _ _ p hp with hp | hp
          · rw [hp]; exact hc
          · exact hvals p hp)
      refine ⟨ih.1, ih.2.1, ?_, ih.2.2.2⟩
      rw [ih.2.2.1, hkeyset]

/-- Destructure a successful `Message.__init__` into its three stages:
spec lookup, the defaults fold, and the keyword-argument fold run on the
state with `time` set to 0. -/
theorem Message.init_ok_elim (key : Key) (args : List (String × PyValue)) (m : Message)
    (h : Message.init key args = .ok m) :
    ∃ spec md, _spec_lookup key = some spec ∧
      spec.arguments.foldlM (Message.default_field key) ⟨spec, spec.type, []⟩ = .ok md ∧
      args.foldlM Message.initStep { md with dict := dictSet md.dict "time" (.int 0) } = .ok m := by
  unfold Message.init at h
  cases hl : _spec_lookup key with
  | none => rw [hl] at h; exact absurd h (by simp)
  | some spec =>
    rw [hl] at h
    dsimp only at h
    cases hd : spec.arguments.foldlM (Message.default_field key) ⟨spec, spec.type, []⟩ with
    | error e => rw [hd] at h; simp [Except.bind] at h
    | ok md =>
      rw [hd] at h
      simp only [Except.bind] at h
      exact ⟨spec, md, rfl, hd, h⟩

/-- After construction with no keyword arguments, `time` is 0 (the `_set`
of the default). -/
theorem Message.init_nil_time (key : Key) (m : Message)
    (h : Message.init key [] = .ok m) : m.getattr "time" = .int 0 := by
  obtain ⟨spec, md, -, -, hf⟩ := Message.init_ok_elim key [] m h
  simp only [List.foldlM] at hf
  obtain rfl : _ = m := by injection hf
  show ((((dictSet md.dict "time" (.int 0)).find? (fun p => p.1 == "time")).map Prod.snd).getD (.int 0)) = _
  rw [dictSet_find_self]
  rfl

/-- Constructing with a single keyword argument is constructing with none
followed by the argument step. -/
theorem Message.init_singleton (key : Key) (nv : String × PyValue) :
    Message.init key [nv] = (Message.init key []).bind (fun m => m.initStep nv) := by
  unfold Message.init
  cases _spec_lookup key with
  | none => rfl
  | some spec =>
    dsimp only
    cases spec.arguments.foldlM (Message.default_field key) ⟨spec, spec.type, []⟩ with
    | error e => rfl
    | ok md =>
      show Except.bind
          (Message.initStep { md with dict := dictSet md.dict "time" (.int 0) } nv) pure =
        Message.initStep { md with dict := dictSet md.dict "time" (.int 0) } nv
      cases Message.initStep { md with dict := dictSet md.dict "time" (.int 0) } nv <;> rfl

/-! ### Claim theorems: evaluations -/

/-- C1: the size table disagrees with the encoder for `program_change` and
`aftertouch`: both are declared with `size` 3 but encode to 2 bytes (status
plus one data byte); `note_on`, in contrast, matches its declared size. -/
theorem program_change_aftertouch_size_mismatch :
    ((Message.init (Key.str "program_change") []).map
        (fun m => (m.bytes.length, m._spec.size)) = .ok (2, some 3)) ∧
    ((Message.init (Key.str "aftertouch") []).map
        (fun m => (m.bytes.length, m._spec.size)) = .ok (2, some 3)) ∧
    ((Message.init (Key.str "note_on") []).map
        (fun m => (m.bytes.length, m._spec.size)) = .ok (3, some 3)) := by decide

/-- C3: the parenthesis test `not value.startswith('(') and
value.endswith(')')` misparenthesizes the intended negation, so a `data`
value that neither starts with `(` nor ends with `)` slips through: parsing
`sysex data=123` succeeds (storing the interior digit 2) instead of failing;
the error fires only for a value that ends with `)` without starting with
`(`; a wrapped value with a non-integer piece does fail as specified. -/
theorem data_parentheses_precedence_eval :
    (text_parse "sysex data=123" =
      .ok ⟨⟨0xf0, "sysex", ["data"], none⟩, "sysex",
        [("data", .list [.int 2]), ("time", .int 0)]⟩) ∧
    (text_parse "sysex data=1,2)" =
      .error (.valueError "missing parentheses in data message")) ∧
    (text_parse "sysex data=(1,x)" =
      .error (.valueError "unable to parse data bytes")) := by decide

/-- C4: the spec's example stream behaves as stated (two results, the
second tagged "line 2", the comment line skipped), but fault isolation
fails when a line's parse raises an AttributeError (a `data` argument on a
type without a `data` field): `except ValueError` does not catch it, the
generator dies, and the following parseable line is never yielded. -/
theorem text_parse_stream_eval :
    (text_parse_stream ["note_on note=60 velocity=32", "bogus", "# comment only"] =
      ([(some ⟨⟨0x90, "note_on", ["channel", "note", "velocity"], some 3⟩, "note_on",
           [("channel", .int 0), ("note", .int 60), ("velocity", .int 32), ("time", .int 0)]⟩,
         none),
        (none, some "line 2: is an invalid type name or status byte")], none)) ∧
    (text_parse_stream ["note_on data=(1)", "clock"] =
      ([], some (.attributeError "note_on message has no attribute data"))) := by decide

/-- C2 counterexample: the text round-trip fails for a sysex message with
empty data: it formats to `sysex data=()`, whose interior splits to one
empty piece, and `int('')` raises, so parsing reports "unable to parse data
bytes" instead of returning an equal message. -/
theorem sysex_empty_data_roundtrip_fails :
    (Message.init (Key.str "sysex") []).bind (fun m => text_parse (text_format m)) =
      .error (.valueError "unable to parse data bytes") := by decide

/-! ### Registry lemmas (C5) -/

set_option maxRecDepth 16384

theorem spec_entries_int_keys_in_range :
    ∀ e ∈ spec_entries,
      (e.1.intVal.all (fun i => decide (128 ≤ i ∧ i ≤ 255))) = true := by decide

theorem spec_entries_str_keys_are_type_names :
    ∀ e ∈ spec_entries,
      (e.1.strName.all (fun t => decide (t ∈ get_message_specs.map MessageSpec.type))) = true := by
  decide

theorem spec_lookup_int_in_range_isSome :
    ∀ n : Nat, n < 256 → 128 ≤ n → (_spec_lookup (Key.int ↑n)).isSome = true := by decide

theorem spec_lookup_known_names_isSome :
    ∀ s ∈ get_message_specs.map MessageSpec.type,
      (_spec_lookup (Key.str s)).isSome = true := by decide

/-- C5 counterexample: the registry holds 23 standard types, not 21 — the
system status bytes 0xF1–0xFF give 15 types (not 14), plus sysex and the 7
channel types. -/
theorem registry_has_23_types_not_21 :
    get_message_specs.length ≠ 21 ∧ get_message_specs.length = 23 ∧
    (get_message_specs.filter (fun s => 0xf1 ≤ s.status_byte)).length = 15 := by decide

/-- C5 (amended): the registry holds exactly 23 standard types (7 channel
types, each also indexed under all 16 status-byte aliases; 15 system types
0xF1–0xFF; sysex at 0xF0), and an integer key resolves exactly when it lies
in 0x80–0xFF while a string key resolves exactly when it is a known type
name. -/
theorem registry_characterization :
    get_message_specs.length = 23 ∧
    (∀ sp ∈ get_message_specs, sp.status_byte < 0xf0 →
      ∀ c : Nat, c < 16 → _spec_lookup (Key.int ↑(sp.status_byte ||| c)) = some sp) ∧
    (∀ k : Int, (_spec_lookup (Key.int k)).isSome = true ↔ 128 ≤ k ∧ k ≤ 255) ∧
    (∀ s : String, (_spec_lookup (Key.str s)).isSome = true ↔
      s ∈ get_message_specs.map MessageSpec.type) := by
  refine ⟨by decide, by decide, ?_, ?_⟩
  · intro k
    constructor
    · intro h
      unfold _spec_lookup at h
      cases hf : spec_entries.find? (fun e => e.1 == Key.int k) with
      | none => rw [hf] at h; simp at h
      | some e =>
        have hm := List.mem_of_find?_eq_some hf
        have hp : e.1 = Key.int k := by
          have := List.find?_some hf
          simpa using this
        have hr := spec_entries_int_keys_in_range e hm
        rw [hp] at hr
        simpa using of_decide_eq_true (by simpa [Key.intVal, Option.all] using hr)
    · rintro ⟨h1, h2⟩
      obtain ⟨n, rfl⟩ : ∃ n : Nat, k = ↑n :=
        ⟨k.toNat, (Int.toNat_of_nonneg (by omega)).symm⟩
      exact spec_lookup_int_in_range_isSome n (by omega) (by omega)
  · intro s
    constructor
    · intro h
      unfold _spec_lookup at h
      cases hf : spec_entries.find? (fun e => e.1 == Key.str s) with
      | none => rw [hf] at h; simp at h
      | some e =>
        have hm := List.mem_of_find?_eq_some hf
        have hp : e.1 = Key.str s := by
          have := List.find?_some hf
          simpa using this
        have hr := spec_entries_str_keys_are_type_names e hm
        rw [hp] at hr
        exact of_decide_eq_true (by simpa [Key.strName, Option.all] using hr)
    · intro h
      exact spec_lookup_known_names_isSome s h

/-- Witness for C5: the channel alias 0x93 and the name "sysex" resolve;
alias 0x95 of the note_on spec resolves to that spec. -/
theorem registry_characterization_witness :
    (_spec_lookup (Key.int 147)).isSome = true ∧
    (_spec_lookup (Key.str "sysex")).isSome = true ∧
    _spec_lookup (Key.int 149) =
      some ⟨0x90, "note_on", ["channel", "note", "velocity"], some 3⟩ := by
  refine ⟨(registry_characterization.2.2.1 147).mpr (by decide),
    (registry_characterization.2.2.2 "sysex").mpr (by decide), ?_⟩
  have h := registry_characterization.2.1
    ⟨0x90, "note_on", ["channel", "note", "velocity"], some 3⟩ (by decide) (by decide)
    5 (by decide)
  have he : (149 : Int) = ↑((⟨0x90, "note_on", ["channel", "note", "velocity"],
      some 3⟩ : MessageSpec).status_byte ||| 5) := by decide
  rw [he]
  exact h

/-- Construction with keyword arguments is construction with none followed
by the keyword-argument fold. -/
theorem Message.init_eq_nil_fold (key : Key) (args : List (String × PyValue)) :
    Message.init key args =
      (Message.init key []).bind (fun m => args.foldlM Message.initStep m) := by
  unfold Message.init
  cases _spec_lookup key with
  | none => rfl
  | some spec =>
    dsimp only
    cases spec.arguments.foldlM (Message.default_field key) ⟨spec, spec.type, []⟩ with
    | error e => rfl
    | ok md => rfl

/-! ### Per-field `setattr` step lemmas -/

theorem Message.setattr_channel (m : Message) (c : Int)
    (hmem : "channel" ∈ m._spec.valid_attributes) (h1 : 0 ≤ c) (h2 : c ≤ 15) :
    m.setattr "channel" (.int c) =
      .ok { m with dict := dictSet m.dict "channel" (.int c) } := by
  unfold Message.setattr check_for check_channel
  rw [if_pos hmem, if_neg (by decide : ¬"channel" = "time"), if_pos rfl]
  dsimp only
  rw [if_pos ⟨h1, h2⟩]
  rfl

theorem Message.setattr_pitch (m : Message) (p : Int)
    (hmem : "pitch" ∈ m._spec.valid_attributes)
    (h1 : MIN_PITCHWHEEL ≤ p) (h2 : p ≤ MAX_PITCHWHEEL) :
    m.setattr "pitch" (.int p) =
      .ok { m with dict := dictSet m.dict "pitch" (.int p) } := by
  unfold Message.setattr check_for check_pitch
  rw [if_pos hmem, if_neg (by decide : ¬"pitch" = "time"),
    if_neg (by decide : ¬"pitch" = "channel"), if_neg (by decide : ¬"pitch" = "pos"),
    if_pos rfl]
  dsimp only
  rw [if_pos ⟨h1, h2⟩]
  rfl

theorem Message.setattr_pos (m : Message) (p : Int)
    (hmem : "pos" ∈ m._spec.valid_attributes)
    (h1 : MIN_SONGPOS ≤ p) (h2 : p ≤ MAX_SONGPOS) :
    m.setattr "pos" (.int p) =
      .ok { m with dict := dictSet m.dict "pos" (.int p) } := by
  unfold Message.setattr check_for check_pos
  rw [if_pos hmem, if_neg (by decide : ¬"pos" = "time"),
    if_neg (by decide : ¬"pos" = "channel"), if_pos rfl]
  dsimp only
  rw [if_pos ⟨h1, h2⟩]
  rfl

theorem Message.setattr_databyte (m : Message) (name : String) (v : Int)
    (hmem : name ∈ m._spec.valid_attributes)
    (hn : name ∉ ["time", "channel", "pos", "pitch", "data"])
    (h1 : 0 ≤ v) (h2 : v ≤ 127) :
    m.setattr name (.int v) =
      .ok { m with dict := dictSet m.dict name (.int v) } := by
  simp only [List.mem_cons, List.mem_singleton, not_or] at hn
  obtain ⟨hn1, hn2, hn3, hn4, hn5⟩ := hn
  unfold Message.setattr check_for check_databyte
  rw [if_pos hmem, if_neg hn1, if_neg hn2, if_neg hn3, if_neg hn4, if_neg hn5.1]
  dsimp only
  rw [if_pos ⟨h1, h2⟩]
  rfl

theorem Message.setattr_data (m : Message) (vs : List PyValue)
    (hmem : "data" ∈ m._spec.valid_attributes)
    (hvs : (vs.forM check_databyte) = .ok ()) :
    m.setattr "data" (.list vs) =
      .ok { m with dict := dictSet m.dict "data" (.list vs) } := by
  unfold Message.setattr check_for check_data
  rw [if_pos hmem, if_neg (by decide : ¬"data" = "time"),
    if_neg (by decide : ¬"data" = "channel"), if_neg (by decide : ¬"data" = "pos"),
    if_neg (by decide : ¬"data" = "pitch"), if_pos rfl]
  dsimp only
  rw [hvs]
  rfl

theorem Message.setattr_time_int (m : Message) (t : Int)
    (hmem : "time" ∈ m._spec.valid_attributes) :
    m.setattr "time" (.int t) =
      .ok { m with dict := dictSet m.dict "time" (.int t) } := by
  unfold Message.setattr check_for check_time
  rw [if_pos hmem, if_pos rfl]
  rfl

/-- Unfolding step for the keyword-argument fold. -/
theorem foldlM_initStep_cons (m : Message) (nv : String × PyValue)
    (rest : List (String × PyValue)) :
    List.foldlM Message.initStep m (nv :: rest) =
      (m.initStep nv).bind (fun m2 => List.foldlM Message.initStep m2 rest) := by
  simp only [List.foldlM]
  cases m.initStep nv <;> rfl

theorem initStep_of_setattr_ok (m : Message) (nv : String × PyValue) (m2 : Message)
    (h : m.setattr nv.1 nv.2 = .ok m2) : m.initStep nv = .ok m2 :=
  (Message.initStep_ok_iff m nv m2).mpr h

theorem foldlM_initStep_append :
    ∀ (l1 l2 : List (String × PyValue)) (m : Message),
    List.foldlM Message.initStep m (l1 ++ l2) =
      (List.foldlM Message.initStep m l1).bind
        (fun m2 => List.foldlM Message.initStep m2 l2)
  | [], _, _ => rfl
  | nv :: rest, l2, m => by
    rw [List.cons_append, foldlM_initStep_cons, foldlM_initStep_cons]
    cases m.initStep nv with
    | error e => rfl
    | ok m2 => exact foldlM_initStep_append rest l2 m2

theorem initStep_fold_spec_eq :
    ∀ (args : List (String × PyValue)) (m m2 : Message),
    args.foldlM Message.initStep m = .ok m2 → m2._spec = m._spec ∧ m2.type = m.type
  | [], m, m2, h => by
    simp only [List.foldlM] at h
    obtain rfl : m = m2 := by injection h
    exact ⟨rfl, rfl⟩
  | nv :: rest, m, m2, h => by
    rw [foldlM_initStep_cons] at h
    cases hs : m.initStep nv with
    | error e => rw [hs] at h; simp [Except.bind] at h
    | ok m' =>
      rw [hs] at h
      simp only [Except.bind] at h
      have h1 := initStep_fold_spec_eq rest m' m2 h
      have h2 := Message.setattr_spec_eq m nv.1 nv.2 m'
        ((Message.initStep_ok_iff m nv m').mp hs)
      exact ⟨h1.1.trans h2.1, h1.2.trans h2.2⟩

/-- The keyword-argument fold never touches an attribute whose name is not
among the supplied keys. -/
theorem initStep_fold_getattr_ne :
    ∀ (args : List (String × PyValue)) (m m2 : Message) (name : String),
    args.foldlM Message.initStep m = .ok m2 →
    (∀ nv ∈ args, nv.1 ≠ name) →
    m2.getattr name = m.getattr name
  | [], m, m2, _, h, _ => by
    simp only [List.foldlM] at h
    obtain rfl : m = m2 := by injection h
    rfl
  | nv :: rest, m, m2, name, h, hne => by
    rw [foldlM_initStep_cons] at h
    cases hs : m.initStep nv with
    | error e => rw [hs] at h; simp [Except.bind] at h
    | ok m' =>
      rw [hs] at h
      simp only [Except.bind] at h
      have h1 := initStep_fold_getattr_ne rest m' m2 name h
        (fun x hx => hne x (List.mem_cons_of_mem _ hx))
      have h2 := Message.setattr_getattr_ne m nv.1 nv.2 m'
        ((Message.initStep_ok_iff m nv m').mp hs) name
        (Ne.symm (hne nv (List.mem_cons_self _ _)))
      exact h1.trans h2

/-- `status_byte` is computed from the spec and the channel attribute
alone. -/
theorem Message.status_byte_congr (m m2 : Message) (hspec : m2._spec = m._spec)
    (hch : m2.getattr "channel" = m.getattr "channel") :
    m2.status_byte = m.status_byte := by
  unfold Message.status_byte
  rw [hspec, hch]

/-! ### C7: pitchwheel encoding -/

/-- C7: for any pitch in range and any channel in range, the constructed
pitchwheel message encodes to the status byte `0xE0 | channel` followed by
exactly the two bytes `(pitch + 8192) & 0x7F` and `(pitch + 8192) >> 7`
(low 7 bits first). -/
theorem pitchwheel_encoding (p : Int) (hp1 : MIN_PITCHWHEEL ≤ p) (hp2 : p ≤ MAX_PITCHWHEEL)
    (c : Int) (hc1 : 0 ≤ c) (hc2 : c ≤ 15) :
    ∃ m, Message.init (Key.str "pitchwheel") [("channel", .int c), ("pitch", .int p)] = .ok m ∧
      m.bytes = [Int.lor 0xe0 c, Int.land (p + 8192) 0x7f, Int.shiftRight (p + 8192) 7] := by
  rw [Message.init_eq_nil_fold]
  have h0 : Message.init (Key.str "pitchwheel") [] =
      .ok ⟨⟨0xe0, "pitchwheel", ["channel", "pitch"], some 3⟩, "pitchwheel",
        [("channel", .int 0), ("pitch", .int 0), ("time", .int 0)]⟩ := by decide
  rw [h0]
  have s1 : (⟨⟨0xe0, "pitchwheel", ["channel", "pitch"], some 3⟩, "pitchwheel",
        [("channel", .int 0), ("pitch", .int 0), ("time", .int 0)]⟩ : Message).setattr
        "channel" (.int c) =
      .ok ⟨⟨0xe0, "pitchwheel", ["channel", "pitch"], some 3⟩, "pitchwheel",
        [("channel", .int c), ("pitch", .int 0), ("time", .int 0)]⟩ :=
    Message.setattr_channel ⟨⟨0xe0, "pitchwheel", ["channel", "pitch"], some 3⟩, "pitchwheel",
      [("channel", .int 0), ("pitch", .int 0), ("time", .int 0)]⟩ c
      (by simp [MessageSpec.valid_attributes]) hc1 hc2
  have s2 : (⟨⟨0xe0, "pitchwheel", ["channel", "pitch"], some 3⟩, "pitchwheel",
        [("channel", .int c), ("pitch", .int 0), ("time", .int 0)]⟩ : Message).setattr
        "pitch" (.int p) =
      .ok ⟨⟨0xe0, "pitchwheel", ["channel", "pitch"], some 3⟩, "pitchwheel",
        [("channel", .int c), ("pitch", .int p), ("time", .int 0)]⟩ :=
    Message.setattr_pitch ⟨⟨0xe0, "pitchwheel", ["channel", "pitch"], some 3⟩, "pitchwheel",
      [("channel", .int c), ("pitch", .int 0), ("time", .int 0)]⟩ p
      (by simp [MessageSpec.valid_attributes]) hp1 hp2
  refine ⟨⟨⟨0xe0, "pitchwheel", ["channel", "pitch"], some 3⟩, "pitchwheel",
    [("channel", .int c), ("pitch", .int p), ("time", .int 0)]⟩, ?_, ?_⟩
  · show List.foldlM Message.initStep
      ⟨⟨0xe0, "pitchwheel", ["channel", "pitch"], some 3⟩, "pitchwheel",
        [("channel", .int 0), ("pitch", .int 0), ("time", .int 0)]⟩
      [("channel", .int c), ("pitch", .int p)] = _
    rw [foldlM_initStep_cons, initStep_of_setattr_ok _ _ _ s1]
    show List.foldlM Message.initStep
      ⟨⟨0xe0, "pitchwheel", ["channel", "pitch"], some 3⟩, "pitchwheel",
        [("channel", .int c), ("pitch", .int 0), ("time", .int 0)]⟩
      [("pitch", .int p)] = _
    rw [foldlM_initStep_cons, initStep_of_setattr_ok _ _ _ s2]
    rfl
  · rfl

/-- Witness for C7: the spec's example — pitchwheel with channel 0 and
pitch 0 encodes to `[0xE0, 0x00, 0x40]`. -/
theorem pitchwheel_encoding_witness :
    ∃ m, Message.init (Key.str "pitchwheel") [("channel", .int 0), ("pitch", .int 0)] = .ok m ∧
      m.bytes = [0xe0, 0x00, 0x40] := by
  obtain ⟨m, h1, h2⟩ := pitchwheel_encoding 0 (by decide) (by decide) 0 (by decide) (by decide)
  exact ⟨m, h1, h2.trans (by decide)⟩

/-! ### C8: integer-key construction and channel default -/

theorem init_int_key_facts :
    ∀ n : Nat, n < 240 → 128 ≤ n →
      (Message.init (Key.int ↑n) []).map
        (fun m => (m.getattr "channel", m.status_byte,
          decide ("channel" ∈ m._spec.valid_attributes))) =
      .ok (.int (Int.land ↑n 15), (↑n : Int), true) := by decide

/-- C8: for every construction from an integer key `k` in 0x80–0xEF whose
supplied fields contain no `channel` entry, the resulting message's channel
is `k & 0x0F` and its `status_byte` reads back as `k`; when the supplied
fields do contain a `channel` entry, that value overrides the default; in
particular key 0x93 with no fields gives channel 3 and status byte 0x93. -/
theorem construct_int_key_channel :
    (∀ (k : Int), 128 ≤ k → k ≤ 239 →
      ∀ (args : List (String × PyValue)), (∀ nv ∈ args, nv.1 ≠ "channel") →
      ∀ (m : Message), Message.init (Key.int k) args = .ok m →
        m.getattr "channel" = .int (Int.land k 15) ∧ m.status_byte = k) ∧
    (∀ (k : Int), 128 ≤ k → k ≤ 239 →
      ∀ (args1 args2 : List (String × PyValue)) (c : PyValue),
      (∀ nv ∈ args2, nv.1 ≠ "channel") →
      ∀ (m : Message),
        Message.init (Key.int k) (args1 ++ ("channel", c) :: args2) = .ok m →
        m.getattr "channel" = c) ∧
    (∃ m, Message.init (Key.int 147) [] = .ok m ∧
      m.getattr "channel" = .int 3 ∧ m.status_byte = 147) := by
  have base : ∀ k : Int, 128 ≤ k → k ≤ 239 → ∀ m0 : Message,
      Message.init (Key.int k) [] = .ok m0 →
        m0.getattr "channel" = .int (Int.land k 15) ∧ m0.status_byte = k := by
    intro k h1 h2 m0 hI
    obtain ⟨n, rfl⟩ : ∃ n : Nat, k = ↑n :=
      ⟨k.toNat, (Int.toNat_of_nonneg (by omega)).symm⟩
    have hf := init_int_key_facts n (by omega) (by omega)
    rw [hI] at hf
    simp only [Except.map] at hf
    have h3 := Except.ok.inj hf
    rw [Prod.mk.injEq, Prod.mk.injEq] at h3
    exact ⟨h3.1, h3.2.1⟩
  refine ⟨?_, ?_, ?_⟩
  · intro k h1 h2 args hargs m hI
    rw [Message.init_eq_nil_fold] at hI
    cases h0 : Message.init (Key.int k) [] with
    | error e => rw [h0] at hI; simp [Except.bind] at hI
    | ok m0 =>
      rw [h0] at hI
      simp only [Except.bind] at hI
      obtain ⟨hch0, hsb0⟩ := base k h1 h2 m0 h0
      have hch := initStep_fold_getattr_ne args m0 m "channel" hI hargs
      have hspec := (initStep_fold_spec_eq args m0 m hI).1
      exact ⟨hch.trans hch0,
        (Message.status_byte_congr m0 m hspec hch).trans hsb0⟩
  · intro k h1 h2 args1 args2 c hargs2 m hI
    rw [Message.init_eq_nil_fold] at hI
    cases h0 : Message.init (Key.int k) [] with
    | error e => rw [h0] at hI; simp [Except.bind] at hI
    | ok m0 =>
      rw [h0] at hI
      simp only [Except.bind] at hI
      rw [foldlM_initStep_append] at hI
      cases hA : List.foldlM Message.initStep m0 args1 with
      | error e => rw [hA] at hI; simp [Except.bind] at hI
      | ok m1 =>
        rw [hA] at hI
        simp only [Except.bind] at hI
        rw [foldlM_initStep_cons] at hI
        cases hs : m1.initStep ("channel", c) with
        | error e => rw [hs] at hI; simp [Except.bind] at hI
        | ok m2 =>
          rw [hs] at hI
          simp only [Except.bind] at hI
          have hch2 := initStep_fold_getattr_ne args2 m2 m "channel" hI hargs2
          have hset := (Message.initStep_ok_iff m1 ("channel", c) m2).mp hs
          rw [Message.setattr_ok_iff] at hset
          obtain ⟨-, ret, hc, rfl⟩ := hset
          have hretv := check_for_ok_eq _ _ _ hc
          rw [hch2]
          show ((((dictSet m1.dict "channel" ret).find?
              (fun p => p.1 == "channel")).map Prod.snd).getD (.int 0)) = c
          rw [dictSet_find_self]
          exact hretv
  · exact ⟨⟨⟨0x90, "note_on", ["channel", "note", "velocity"], some 3⟩, "note_on",
      [("channel", .int 3), ("note", .int 0), ("velocity", .int 0), ("time", .int 0)]⟩,
      by decide, by decide, by decide⟩

/-- Witness for C8: key 0x95 with a supplied field `note=60` and no channel
entry defaults the channel to 5 and reads back status byte 0x95, and an
explicit `channel=2` among the supplied fields overrides the default. -/
theorem construct_int_key_channel_witness :
    ((⟨⟨0x90, "note_on", ["channel", "note", "velocity"], some 3⟩, "note_on",
        [("channel", .int 5), ("note", .int 60), ("velocity", .int 0),
          ("time", .int 0)]⟩ : Message).getattr "channel" = .int 5 ∧
      (⟨⟨0x90, "note_on", ["channel", "note", "velocity"], some 3⟩, "note_on",
        [("channel", .int 5), ("note", .int 60), ("velocity", .int 0),
          ("time", .int 0)]⟩ : Message).status_byte = 149) ∧
    (⟨⟨0x90, "note_on", ["channel", "note", "velocity"], some 3⟩, "note_on",
        [("channel", .int 2), ("note", .int 60), ("velocity", .int 10),
          ("time", .int 0)]⟩ : Message).getattr "channel" = .int 2 := by
  constructor
  · have h := construct_int_key_channel.1 149 (by decide) (by decide)
      [("note", PyValue.int 60)] (by decide)
      ⟨⟨0x90, "note_on", ["channel", "note", "velocity"], some 3⟩, "note_on",
        [("channel", .int 5), ("note", .int 60), ("velocity", .int 0), ("time", .int 0)]⟩
      (by decide)
    exact ⟨h.1.trans (by decide), h.2⟩
  · exact construct_int_key_channel.2.1 149 (by decide) (by decide)
      [("velocity", PyValue.int 10)] [("note", PyValue.int 60)] (PyValue.int 2)
      (by decide)
      ⟨⟨0x90, "note_on", ["channel", "note", "velocity"], some 3⟩, "note_on",
        [("channel", .int 2), ("note", .int 60), ("velocity", .int 10), ("time", .int 0)]⟩
      (by decide)

/-! ### C6: validated attribute writes -/

theorem initStep_fold_args_ok :
    ∀ (args : List (String × PyValue)) (m m2 : Message),
    args.foldlM Message.initStep m = .ok m2 →
    ∀ nv ∈ args, nv.1 ∈ m2._spec.valid_attributes ∧
      ∃ ret, check_for nv.1 nv.2 = .ok ret
  | [], _, _, _ => by simp
  | nv :: rest, m, m2, h => by
    rw [foldlM_initStep_cons] at h
    cases hs : m.initStep nv with
    | error e => rw [hs] at h; simp [Except.bind] at h
    | ok m' =>
      rw [hs] at h
      simp only [Except.bind] at h
      have hspec2 := (initStep_fold_spec_eq rest m' m2 h).1
      have hset := (Message.initStep_ok_iff m nv m').mp hs
      rw [Message.setattr_ok_iff] at hset
      obtain ⟨hmem, ret, hc, rfl⟩ := hset
      intro x hx
      rcases List.mem_cons.mp hx with hx | hx
      · subst hx
        refine ⟨?_, ret, hc⟩
        rw [hspec2]
        exact hmem
      · exact initStep_fold_args_ok rest _ m2 h x hx

/-- C6: every attribute write at the public interface is validated before
being stored: a successful `setattr` means the name was a valid attribute
and its check succeeded (and exactly the checked value was stored); a name
outside `valid_attributes` is always rejected with an AttributeError; a
failing check surfaces as the error, with no message produced (so the prior
state is unchanged); and a construction that returns a message validated
every supplied field the same way (an invalid one makes it fail with no
message returned). -/
theorem setattr_validation :
    (∀ (m : Message) (name : String) (value : PyValue) (m2 : Message),
      m.setattr name value = .ok m2 →
      name ∈ m._spec.valid_attributes ∧
      ∃ ret, check_for name value = .ok ret ∧
        m2 = { m with dict := dictSet m.dict name ret }) ∧
    (∀ (m : Message) (name : String) (value : PyValue),
      name ∉ m._spec.valid_attributes →
      ∃ msg, m.setattr name value = .error (.attributeError msg)) ∧
    (∀ (m : Message) (name : String) (value : PyValue) (e : PyError),
      name ∈ m._spec.valid_attributes → check_for name value = .error e →
      m.setattr name value = .error e) ∧
    (∀ (key : Key) (args : List (String × PyValue)) (m : Message),
      Message.init key args = .ok m →
      ∀ nv ∈ args, nv.1 ∈ m._spec.valid_attributes ∧
        ∃ ret, check_for nv.1 nv.2 = .ok ret) := by
  refine ⟨?_, ?_, ?_, ?_⟩
  · intro m name value m2 h
    exact (Message.setattr_ok_iff m name value m2).mp h
  · intro m name value h
    unfold Message.setattr
    rw [if_neg h]
    by_cases hc : name = "type" ∨ name = "_spec" ∨ m.dict.any (fun p => p.1 == name) = true
    · rw [if_pos hc]; exact ⟨_, rfl⟩
    · rw [if_neg hc]; exact ⟨_, rfl⟩
  · intro m name value e hmem hcheck
    unfold Message.setattr
    rw [if_pos hmem, hcheck]
    rfl
  · intro key args m h
    obtain ⟨spec, md, -, -, hf⟩ := Message.init_ok_elim key args m h
    exact initStep_fold_args_ok args _ m hf

/-- Witness for C6, on a concrete note_on message: a valid velocity write
satisfies the success characterization; an unknown name is rejected; an
out-of-range velocity surfaces its range error; construction validated its
supplied field. -/
theorem setattr_validation_witness :
    ("velocity" ∈ (⟨⟨0x90, "note_on", ["channel", "note", "velocity"], some 3⟩, "note_on",
        [("channel", .int 0), ("note", .int 0), ("velocity", .int 0), ("time", .int 0)]⟩ :
        Message)._spec.valid_attributes ∧
      ∃ ret, check_for "velocity" (.int 32) = .ok ret) ∧
    (∃ msg, (⟨⟨0x90, "note_on", ["channel", "note", "velocity"], some 3⟩, "note_on",
        [("channel", .int 0), ("note", .int 0), ("velocity", .int 0), ("time", .int 0)]⟩ :
        Message).setattr "bogus" (.int 1) = .error (.attributeError msg)) ∧
    ((⟨⟨0x90, "note_on", ["channel", "note", "velocity"], some 3⟩, "note_on",
        [("channel", .int 0), ("note", .int 0), ("velocity", .int 0), ("time", .int 0)]⟩ :
        Message).setattr "velocity" (.int 200) =
      .error (.valueError "data byte must be in range 0 .. 127")) ∧
    (("velocity", (PyValue.int 32)).1 ∈
        (⟨⟨0x90, "note_on", ["channel", "note", "velocity"], some 3⟩, "note_on",
          [("channel", .int 0), ("note", .int 0), ("velocity", .int 32), ("time", .int 0)]⟩ :
          Message)._spec.valid_attributes ∧
      ∃ ret, check_for ("velocity", (PyValue.int 32)).1 ("velocity", (PyValue.int 32)).2 =
        .ok ret) := by
  refine ⟨?_, ?_, ?_, ?_⟩
  · have hset : (⟨⟨0x90, "note_on", ["channel", "note", "velocity"], some 3⟩, "note_on",
        [("channel", .int 0), ("note", .int 0), ("velocity", .int 0), ("time", .int 0)]⟩ :
        Message).setattr "velocity" (.int 32) =
        .ok ⟨⟨0x90, "note_on", ["channel", "note", "velocity"], some 3⟩, "note_on",
          [("channel", .int 0), ("note", .int 0), ("velocity", .int 32), ("time", .int 0)]⟩ := by
      decide
    obtain ⟨h1, ret, h2, -⟩ := setattr_validation.1 _ _ _ _ hset
    exact ⟨h1, ret, h2⟩
  · exact setattr_validation.2.1 _ "bogus" (.int 1) (by decide)
  · exact setattr_validation.2.2.1 _ "velocity" (.int 200)
      (.valueError "data byte must be in range 0 .. 127") (by decide) (by decide)
  · exact setattr_validation.2.2.2 (Key.str "note_on") [("velocity", .int 32)] _
      (by decide) ("velocity", .int 32) (by simp)

/-! ### C10: copy ignores unknown overrides -/

theorem find?_filter_by_valid (l : List (String × PyValue)) (valid : List String)
    (name : String) (h : name ∈ valid) :
    (l.filter (fun p => decide (p.1 ∈ valid))).find? (fun p => p.1 == name) =
      l.find? (fun p => p.1 == name) := by
  induction l with
  | nil => rfl
  | cons head tail ih =>
    obtain ⟨k, v⟩ := head
    by_cases hkv : k ∈ valid
    · rw [List.filter_cons_of_pos (by simpa using hkv)]
      by_cases hk : k = name
      · subst hk
        rw [List.find?_cons_of_pos _ (by simp), List.find?_cons_of_pos _ (by simp)]
      · rw [List.find?_cons_of_neg _ (by simpa using hk),
          List.find?_cons_of_neg _ (by simpa using hk), ih]
    · have hk : k ≠ name := fun he => hkv (he ▸ h)
      rw [List.filter_cons_of_neg (by simpa using hkv),
        List.find?_cons_of_neg _ (by simpa using hk), ih]

/-- C10: `copy` consults only the override keys among the message's own
fields plus `time`: filtering the overrides down to those keys changes
nothing, an override under any other key (e.g. `type`) is silently dropped,
and — in contrast — construction rejects an unknown field name with an
error. -/
theorem copy_ignores_unknown_overrides :
    (∀ (m : Message) (overrides : List (String × PyValue)),
      m.copy overrides =
        m.copy (overrides.filter
          (fun p => decide (p.1 ∈ m._spec.arguments ++ ["time"])))) ∧
    (∀ (m : Message) (k : String) (v : PyValue) (rest : List (String × PyValue)),
      k ∉ m._spec.arguments ++ ["time"] →
      m.copy ((k, v) :: rest) = m.copy rest) ∧
    ((Message.init (Key.str "note_on") []).bind
        (fun m => m.copy [("type", .int 1), ("bogus", .int 2), ("velocity", .int 9)]) =
      .ok ⟨⟨0x90, "note_on", ["channel", "note", "velocity"], some 3⟩, "note_on",
        [("channel", .int 0), ("note", .int 0), ("velocity", .int 9), ("time", .int 0)]⟩) ∧
    (Message.init (Key.str "note_on") [("bogus", .int 2)] =
      .error (.valueError "bogus is an invalid keyword argument for this message type")) := by
  have hcopy : ∀ (m : Message) (ov : List (String × PyValue)),
      m.copy ov = Message.init (Key.str m.type)
        ((m._spec.arguments ++ ["time"]).map (fun name =>
          match ov.find? (fun p => p.1 == name) with
          | some p => (name, p.2)
          | none => (name, m.getattr name))) := fun _ _ => rfl
  refine ⟨?_, ?_, by decide, by decide⟩
  · intro m overrides
    rw [hcopy, hcopy]
    apply congrArg
    apply List.map_congr_left
    intro name hname
    rw [find?_filter_by_valid overrides _ name hname]
  · intro m k v rest h
    rw [hcopy, hcopy]
    apply congrArg
    apply List.map_congr_left
    intro name hname
    have hk : k ≠ name := fun he => h (he ▸ hname)
    rw [List.find?_cons_of_neg _ (by simpa using hk)]

/-- Witness for C10: overriding `type` on a concrete note_on message is the
same as overriding nothing. -/
theorem copy_ignores_unknown_overrides_witness :
    (⟨⟨0x90, "note_on", ["channel", "note", "velocity"], some 3⟩, "note_on",
      [("channel", .int 0), ("note", .int 0), ("velocity", .int 0), ("time", .int 0)]⟩ :
      Message).copy [("type", .int 5)] =
    (⟨⟨0x90, "note_on", ["channel", "note", "velocity"], some 3⟩, "note_on",
      [("channel", .int 0), ("note", .int 0), ("velocity", .int 0), ("time", .int 0)]⟩ :
      Message).copy [] :=
  copy_ignores_unknown_overrides.2.1 _ "type" (.int 5) [] (by decide)

/-! ### C9: the leading-time quirk -/

theorem text_parse_args_getattr_time :
    ∀ (args : List (List Char)) (m : Message) (seen : List String) (m2 : Message),
    text_parse_args m seen args = .ok m2 →
    (∀ arg ∈ args, (pySplitOn '=' arg).head? ≠ some ("time".data)) →
    m2.getattr "time" = m.getattr "time"
  | [], m, seen, m2, h, _ => by
    obtain rfl : m = m2 := by injection h
    rfl
  | arg :: rest, m, seen, m2, h, hne => by
    have hnehead := hne arg (List.mem_cons_self _ _)
    simp only [text_parse_args] at h
    rcases hsp : pySplitOn '=' arg with _ | ⟨name, _ | ⟨value, _ | _⟩⟩ <;> rw [hsp] at h
    · simp at h
    · simp at h
    · dsimp only at h
      rw [hsp] at hnehead
      have hname : String.mk name ≠ "time" := by
        intro he
        apply hnehead
        simp only [List.head?]
        have : name = "time".data := by
          have := congrArg String.data he
          simpa using this
        rw [this]
      by_cases hseen : String.mk name ∈ seen
      · rw [if_pos hseen] at h; simp at h
      · rw [if_neg hseen] at h
        by_cases hdata : String.mk name = "data"
        · rw [if_pos hdata] at h
          by_cases hpar : ¬(value.head? = some '(') ∧ value.getLast? = some ')'
          · rw [if_pos hpar] at h; simp at h
          · rw [if_neg hpar] at h
            cases hmm : (pySplitOn ',' ((value.drop 1).dropLast)).mapM pyParseInt with
            | none => rw [hmm] at h; simp at h
            | some ds =>
              rw [hmm] at h
              dsimp only at h
              cases hsa : m.setattr "data" (.list (ds.map PyValue.int)) with
              | error e => rw [hsa] at h; simp at h
              | ok m' =>
                rw [hsa] at h
                dsimp only at h
                have ht := text_parse_args_getattr_time rest m' _ m2 h
                  (fun a ha => hne a (List.mem_cons_of_mem _ ha))
                rw [ht]
                exact Message.setattr_getattr_ne m "data" _ m' hsa "time" (by decide)
        · rw [if_neg hdata] at h
          cases hpi : pyParseInt value with
          | none => rw [hpi] at h; simp at h
          | some i =>
            rw [hpi] at h
            dsimp only at h
            cases hsa : m.setattr (String.mk name) (.int i) with
            | error e =>
              rw [hsa] at h
              cases e <;> simp at h
            | ok m' =>
              rw [hsa] at h
              dsimp only at h
              have ht := text_parse_args_getattr_time rest m' _ m2 h
                (fun a ha => hne a (List.mem_cons_of_mem _ ha))
              rw [ht]
              exact Message.setattr_getattr_ne m _ _ m' hsa "time" (Ne.symm hname)
    · simp at h

/-- C9: when the leading token of a parsed line is consumed as a numeric
time, it is applied to the message exactly when it is truthy: a zero time
(int or float) leaves the message's default time 0, a nonzero time is
stored (provided no `time=` keyword argument appears later in the line,
which would write the field again). -/
theorem leading_time_applied_iff_nonzero :
    ∀ (s : String) (w0 w1 : List Char) (args : List (List Char)) (t : PyValue) (m : Message),
    pySplitWs s.data = w0 :: w1 :: args →
    text_parse_number w0 = some t →
    (∀ arg ∈ args, (pySplitOn '=' arg).head? ≠ some ("time".data)) →
    text_parse s = .ok m →
    m.getattr "time" = (if pyTruthy t then t else .int 0) := by
  intro s w0 w1 args t m hsplit hnum hne h
  unfold text_parse text_parse_chars at h
  rw [hsplit] at h
  dsimp only at h
  rw [hnum] at h
  dsimp only at h
  unfold text_parse_body at h
  cases hI : Message.init (Key.str (String.mk w1)) [] with
  | error e => rw [hI] at h; simp [Bind.bind, Except.bind] at h
  | ok m0 =>
    rw [hI] at h
    simp only [Bind.bind, Except.bind] at h
    have h0 : m0.getattr "time" = .int 0 := Message.init_nil_time _ _ hI
    cases htr : pyTruthy t with
    | false =>
      rw [htr] at h
      rw [if_neg (by simp)]
      rw [text_parse_args_getattr_time args m0 [] m h hne]
      exact h0
    | true =>
      rw [htr] at h
      rw [if_pos rfl]
      cases hsa : m0.setattr "time" t with
      | error e => rw [hsa] at h; simp at h
      | ok m1 =>
        rw [hsa] at h
        dsimp only at h
        rw [text_parse_args_getattr_time args m1 [] m h hne]
        have hiff := (Message.setattr_ok_iff m0 "time" t m1).mp hsa
        obtain ⟨-, ret, hc, rfl⟩ := hiff
        obtain rfl : ret = t := check_for_ok_eq _ _ _ hc
        show ((((dictSet m0.dict "time" ret).find?
            (fun p => p.1 == "time")).map Prod.snd).getD (.int 0)) = ret
        rw [dictSet_find_self]
        rfl

/-- Witness for C9: parsing `0 note_on` leaves time at the default 0;
parsing `5 note_on` stores time 5. -/
theorem leading_time_applied_iff_nonzero_witness :
    (∃ m, text_parse "0 note_on" = .ok m ∧ m.getattr "time" = .int 0) ∧
    (∃ m, text_parse "5 note_on" = .ok m ∧ m.getattr "time" = .int 5) := by
  constructor
  · cases hp : text_parse "0 note_on" with
    | error e =>
      have hok : (text_parse "0 note_on").isOk = true := by decide
      rw [hp] at hok
      simp [Except.isOk, Except.toBool] at hok
    | ok m =>
      refine ⟨m, rfl, ?_⟩
      have := leading_time_applied_iff_nonzero "0 note_on" ['0'] "note_on".data []
        (.int 0) m (by decide) (by decide) (by simp) hp
      simpa using this
  · cases hp : text_parse "5 note_on" with
    | error e =>
      have hok : (text_parse "5 note_on").isOk = true := by decide
      rw [hp] at hok
      simp [Except.isOk, Except.toBool] at hok
    | ok m =>
      refine ⟨m, rfl, ?_⟩
      have := leading_time_applied_iff_nonzero "5 note_on" ['5'] "note_on".data []
        (.int 5) m (by decide) (by decide) (by simp) hp
      simpa using this

/-! ### Decimal rendering and parsing lemmas -/

theorem digitChar_toNat (n : Nat) (h : n < 10) : (digitChar n).toNat = 48 + n := by
  interval_cases n <;> decide

theorem digitChar_isDigit (n : Nat) (h : n < 10) : (digitChar n).isDigit = true := by
  interval_cases n <;> decide

theorem natRepr_ne_nil (n : Nat) : natRepr n ≠ [] := by
  rw [natRepr]
  split
  · simp
  · simp

theorem natRepr_all_digit (n : Nat) : ∀ c ∈ natRepr n, c.isDigit = true := by
  induction n using Nat.strong_induction_on with
  | _ n ih =>
    rw [natRepr]
    split
    · intro c hc
      rw [List.mem_singleton] at hc
      subst hc
      exact digitChar_isDigit n (by omega)
    · intro c hc
      rcases List.mem_append.mp hc with hc | hc
      · exact ih (n / 10) (Nat.div_lt_self (by omega) (by omega)) c hc
      · rw [List.mem_singleton] at hc
        subst hc
        exact digitChar_isDigit _ (Nat.mod_lt _ (by omega))

theorem intRepr_chars (i : Int) : ∀ c ∈ intRepr i, c.isDigit = true ∨ c = '-' := by
  cases i with
  | ofNat n => exact fun c hc => Or.inl (natRepr_all_digit n c hc)
  | negSucc n =>
    intro c hc
    rcases List.mem_cons.mp hc with hc | hc
    · exact Or.inr hc
    · exact Or.inl (natRepr_all_digit _ c hc)

theorem isDigit_not_ws (c : Char) (h : c.isDigit = true) : c.isWhitespace = false := by
  cases hw : c.isWhitespace
  · rfl
  · exfalso
    simp only [Char.isWhitespace] at hw
    simp only [Bool.or_eq_true, decide_eq_true_eq] at hw
    rcases hw with ((hw | hw) | hw) | hw <;> (subst hw; exact absurd h (by decide))

/-- The characters of a rendered int are never whitespace, `=`, `,`, `(`
or `)`. -/
theorem intRepr_char_props (i : Int) :
    ∀ c ∈ intRepr i, c.isWhitespace = false ∧ c ≠ '=' ∧ c ≠ ',' ∧ c ≠ '(' ∧ c ≠ ')' := by
  intro c hc
  rcases intRepr_chars i c hc with h | h
  · exact ⟨isDigit_not_ws c h, fun he => absurd h (by subst he; decide),
      fun he => absurd h (by subst he; decide), fun he => absurd h (by subst he; decide),
      fun he => absurd h (by subst he; decide)⟩
  · subst h
    exact ⟨by decide, by decide, by decide, by decide, by decide⟩

theorem parseDigits_eq_foldl (l : List Char) (h : l ≠ []) :
    parseDigits l = l.foldl (fun acc c =>
      acc.bind (fun a => if c.isDigit then some (10 * a + (c.toNat - 48)) else none))
      (some 0) := by
  cases l with
  | nil => exact absurd rfl h
  | cons c cs => rfl

theorem parseDigits_natRepr (n : Nat) : parseDigits (natRepr n) = some n := by
  induction n using Nat.strong_induction_on with
  | _ n ih =>
    rw [natRepr]
    split
    · rename_i h
      show parseDigits [digitChar n] = some n
      rw [parseDigits_eq_foldl _ (by simp)]
      simp only [List.foldl, Option.bind]
      rw [if_pos (digitChar_isDigit n h), digitChar_toNat n h]
      simp
    · rename_i h
      rw [parseDigits_eq_foldl _ (by simp [natRepr_ne_nil])]
      rw [List.foldl_append]
      rw [← parseDigits_eq_foldl _ (natRepr_ne_nil _), ih (n / 10) (Nat.div_lt_self (by omega) (by omega))]
      simp only [List.foldl, Option.bind]
      rw [if_pos (digitChar_isDigit _ (Nat.mod_lt _ (by omega))),
        digitChar_toNat _ (Nat.mod_lt _ (by omega))]
      rw [Nat.add_sub_cancel_left]
      rw [Nat.div_add_mod]

theorem pyParseInt_intRepr (i : Int) : pyParseInt (intRepr i) = some i := by
  cases i with
  | ofNat n =>
    show pyParseInt (natRepr n) = some (Int.ofNat n)
    cases hn : natRepr n with
    | nil => exact absurd hn (natRepr_ne_nil n)
    | cons c cs =>
      have hcdig : c.isDigit = true := natRepr_all_digit n c (by rw [hn]; simp)
      have hc1 : c ≠ '-' := fun he => absurd hcdig (by subst he; decide)
      have hc2 : c ≠ '+' := fun he => absurd hcdig (by subst he; decide)
      unfold pyParseInt
      split
      · rename_i rest heq
        rw [List.cons.injEq] at heq
        exact absurd heq.1 hc1
      · rename_i rest heq
        rw [List.cons.injEq] at heq
        exact absurd heq.1 hc2
      · rw [← hn, parseDigits_natRepr]
        rfl
  | negSucc n =>
    show pyParseInt ('-' :: natRepr (n + 1)) = some (Int.negSucc n)
    unfold pyParseInt
    split
    · rename_i rest heq
      rw [List.cons.injEq] at heq
      obtain ⟨-, rfl⟩ := heq
      rw [parseDigits_natRepr]
      simp [Int.negSucc_eq]
    · rename_i rest heq
      rw [List.cons.injEq] at heq
      exact absurd heq.1 (by decide)
    · rename_i h1 h2
      exact absurd rfl (h1 (natRepr (n + 1)))

theorem text_parse_number_intRepr (i : Int) :
    text_parse_number (intRepr i) = some (.int i) := by
  unfold text_parse_number
  rw [pyParseInt_intRepr]

theorem mapM_pyParseInt_intRepr (ds : List Int) :
    (ds.map intRepr).mapM pyParseInt = some ds := by
  induction ds with
  | nil => rfl
  | cons d rest ih =>
    rw [List.map_cons, List.mapM_cons, pyParseInt_intRepr, ih]
    rfl

/-! ### Tokenization lemmas -/

theorem foldr_splitWsStep_no_ws (w : List Char) (hw : ∀ c ∈ w, c.isWhitespace = false) :
    ∀ acc : List (List Char), w.foldr splitWsStep ([], acc) = (w, acc) := by
  induction w with
  | nil => intro acc; rfl
  | cons c cs ih =>
    intro acc
    rw [List.foldr_cons, ih (fun c hc => hw c (List.mem_cons_of_mem _ hc))]
    unfold splitWsStep
    dsimp only
    rw [if_neg (by rw [hw c (List.mem_cons_self _ _)]; simp)]

theorem pySplitWs_single (w : List Char) (hw : ∀ c ∈ w, c.isWhitespace = false)
    (hne : w ≠ []) : pySplitWs w = [w] := by
  unfold pySplitWs
  rw [foldr_splitWsStep_no_ws w hw []]
  simp [hne]

theorem pySplitWs_append_word (w rest : List Char)
    (hw : ∀ c ∈ w, c.isWhitespace = false) (hne : w ≠ []) :
    pySplitWs (w ++ ' ' :: rest) = w :: pySplitWs rest := by
  have hstep : ∀ r : List Char × List (List Char),
      splitWsStep ' ' r = ([], if r.1.isEmpty then r.2 else r.1 :: r.2) := by
    intro r
    rcases r with ⟨cur, acc⟩
    unfold splitWsStep
    dsimp only
    rw [if_pos (by decide)]
  unfold pySplitWs
  rw [List.foldr_append, List.foldr_cons, hstep, foldr_splitWsStep_no_ws w hw _]
  dsimp only
  rw [if_neg (by simp [hne])]

theorem foldr_splitOn_no_sep (sep : Char) (w : List Char) (hw : ∀ c ∈ w, c ≠ sep) :
    ∀ (cur : List Char) (acc : List (List Char)),
      w.foldr (fun c (p : List Char × List (List Char)) =>
        if c = sep then ([], p.1 :: p.2) else (c :: p.1, p.2)) (cur, acc) =
      (w ++ cur, acc) := by
  induction w with
  | nil => intro cur acc; rfl
  | cons c cs ih =>
    intro cur acc
    rw [List.foldr_cons, ih (fun c hc => hw c (List.mem_cons_of_mem _ hc))]
    rw [if_neg (hw c (List.mem_cons_self _ _))]
    rfl

theorem pySplitOn_no_sep (sep : Char) (w : List Char) (hw : ∀ c ∈ w, c ≠ sep) :
    pySplitOn sep w = [w] := by
  unfold pySplitOn
  rw [foldr_splitOn_no_sep sep w hw [] []]
  simp

theorem pySplitOn_piece (sep : Char) (p l : List Char) (hp : ∀ c ∈ p, c ≠ sep) :
    pySplitOn sep (p ++ sep :: l) = p :: pySplitOn sep l := by
  unfold pySplitOn
  rw [List.foldr_append, List.foldr_cons, if_pos rfl]
  rcases hr : l.foldr (fun c (p : List Char × List (List Char)) =>
      if c = sep then ([], p.1 :: p.2) else (c :: p.1, p.2)) ([], []) with ⟨cur, acc⟩
  show (p.foldr _ ([], cur :: acc)).1 :: (p.foldr _ ([], cur :: acc)).2 = _
  rw [foldr_splitOn_no_sep sep p hp [] (cur :: acc)]
  simp

theorem pySplitOn_commaJoin (ps : List (List Char)) (hne : ps ≠ [])
    (h : ∀ p ∈ ps, ∀ c ∈ p, c ≠ ',') :
    pySplitOn ',' (commaJoin ps) = ps := by
  induction ps with
  | nil => exact absurd rfl hne
  | cons p rest ih =>
    cases rest with
    | nil =>
      show pySplitOn ',' p = [p]
      exact pySplitOn_no_sep ',' p (h p (List.mem_cons_self _ _))
    | cons q qs =>
      show pySplitOn ',' (p ++ ',' :: commaJoin (q :: qs)) = _
      rw [pySplitOn_piece ',' p _ (h p (List.mem_cons_self _ _)),
        ih (by simp) (fun x hx => h x (List.mem_cons_of_mem _ hx))]

theorem string_mk_data (s : String) : String.mk s.data = s := by
  cases s
  rfl

/-! ### Argument-token stepping lemmas for `text_parse_args` -/

theorem text_parse_args_int_step (m : Message) (seen : List String) (name : String)
    (x : Int) (rest : List (List Char))
    (hns : name ≠ "data") (hseen : name ∉ seen)
    (hchars : ∀ c ∈ name.data, c ≠ '=') (m2 : Message)
    (hsa : m.setattr name (.int x) = .ok m2) :
    text_parse_args m seen ((name.data ++ '=' :: intRepr x) :: rest) =
      text_parse_args m2 (name :: seen) rest := by
  have hsplit : pySplitOn '=' (name.data ++ '=' :: intRepr x) = [name.data, intRepr x] := by
    rw [pySplitOn_piece '=' _ _ hchars,
      pySplitOn_no_sep '=' _ (fun c hc => (intRepr_char_props x c hc).2.1)]
  simp only [text_parse_args]
  rw [hsplit]
  dsimp only
  rw [string_mk_data]
  rw [if_neg hseen, if_neg hns, pyParseInt_intRepr]
  dsimp only
  rw [hsa]

theorem commaJoin_intRepr_chars (ds : List Int) :
    ∀ c ∈ commaJoin (ds.map intRepr), c.isDigit = true ∨ c = '-' ∨ c = ',' := by
  induction ds with
  | nil => simp [commaJoin]
  | cons d tail ih =>
    cases tail with
    | nil =>
      intro c hc
      rcases intRepr_chars d c hc with h | h
      · exact Or.inl h
      · exact Or.inr (Or.inl h)
    | cons e es =>
      intro c hc
      show c.isDigit = true ∨ c = '-' ∨ c = ','
      rcases List.mem_append.mp hc with hc | hc
      · rcases intRepr_chars d c hc with h | h
        · exact Or.inl h
        · exact Or.inr (Or.inl h)
      · rcases List.mem_cons.mp hc with hc | hc
        · exact Or.inr (Or.inr hc)
        · exact ih c hc

theorem text_parse_args_data_step (m : Message) (seen : List String)
    (ds : List Int) (rest : List (List Char))
    (hseen : "data" ∉ seen) (hdne : ds ≠ []) (m2 : Message)
    (hsa : m.setattr "data" (.list (ds.map PyValue.int)) = .ok m2) :
    text_parse_args m seen
      (("data".data ++ '=' :: ('(' :: (commaJoin (ds.map intRepr) ++ [')']))) :: rest) =
      text_parse_args m2 ("data" :: seen) rest := by
  have hjchars := commaJoin_intRepr_chars ds
  have hvchars : ∀ c ∈ '(' :: (commaJoin (ds.map intRepr) ++ [')']), c ≠ '=' := by
    intro c hc
    rcases List.mem_cons.mp hc with hc | hc
    · subst hc; decide
    · rcases List.mem_append.mp hc with hc | hc
      · rcases hjchars c hc with h | h | h
        · intro he; subst he; exact absurd h (by decide)
        · subst h; decide
        · subst h; decide
      · rw [List.mem_singleton] at hc
        subst hc; decide
  have hsplit : pySplitOn '=' ("data".data ++ '=' ::
      ('(' :: (commaJoin (ds.map intRepr) ++ [')']))) =
      ["data".data, '(' :: (commaJoin (ds.map intRepr) ++ [')'])] := by
    rw [pySplitOn_piece '=' _ _ (by decide), pySplitOn_no_sep '=' _ hvchars]
  simp only [text_parse_args]
  rw [hsplit]
  dsimp only
  rw [string_mk_data]
  rw [if_neg hseen, if_pos rfl]
  rw [if_neg (by simp)]
  have hslice : (('(' :: (commaJoin (ds.map intRepr) ++ [')'])).drop 1).dropLast =
      commaJoin (ds.map intRepr) := by
    rw [List.drop_one, List.tail_cons, List.dropLast_concat]
  rw [hslice]
  rw [pySplitOn_commaJoin (ds.map intRepr) (by simpa using hdne)
    (by
      intro p hp c hc
      rw [List.mem_map] at hp
      obtain ⟨d, -, rfl⟩ := hp
      exact (intRepr_char_props d c hc).2.2.1)]
  rw [mapM_pyParseInt_intRepr]
  dsimp only
  rw [hsa]

/-! ### Check-success elimination lemmas -/

theorem check_databyte_ok_elim (v : PyValue) (u : Unit)
    (h : check_databyte v = .ok u) : ∃ i, v = .int i ∧ 0 ≤ i ∧ i ≤ 127 := by
  cases v with
  | int i =>
    refine ⟨i, rfl, ?_⟩
    unfold check_databyte at h
    dsimp only at h
    by_cases hb : 0 ≤ i ∧ i ≤ 127
    · exact hb
    · rw [if_neg hb] at h; simp at h
  | float q => simp [check_databyte] at h
  | list l => simp [check_databyte] at h

theorem forM_check_databyte_elim (l : List PyValue)
    (h : l.forM check_databyte = .ok ()) :
    ∃ ds : List Int, l = ds.map PyValue.int ∧ ∀ d ∈ ds, 0 ≤ d ∧ d ≤ 127 := by
  induction l with
  | nil => exact ⟨[], rfl, by simp⟩
  | cons x xs ih =>
    rw [show (x :: xs).forM check_databyte =
      (check_databyte x >>= fun _ => xs.forM check_databyte) from rfl] at h
    cases hx : check_databyte x with
    | error e => rw [hx] at h; simp [Bind.bind, Except.bind] at h
    | ok u =>
      rw [hx] at h
      simp only [Bind.bind, Except.bind] at h
      obtain ⟨i, rfl, hi⟩ := check_databyte_ok_elim x u hx
      obtain ⟨ds, rfl, hds⟩ := ih h
      refine ⟨i :: ds, rfl, ?_⟩
      intro d hd
      rcases List.mem_cons.mp hd with hd | hd
      · subst hd; exact hi
      · exact hds d hd

theorem check_for_channel_elim (v : PyValue) (h : check_for "channel" v = .ok v) :
    ∃ c, v = .int c ∧ 0 ≤ c ∧ c ≤ 15 := by
  have h2 : (check_channel v).map (fun _ => v) = .ok v := h
  cases hc : check_channel v with
  | error e => rw [hc] at h2; simp [Except.map] at h2
  | ok u =>
    unfold check_channel at hc
    cases v with
    | int c =>
      refine ⟨c, rfl, ?_⟩
      dsimp only at hc
      by_cases hb : 0 ≤ c ∧ c ≤ 15
      · exact hb
      · rw [if_neg hb] at hc; simp at hc
    | float q => simp at hc
    | list l => simp at hc

theorem check_for_pitch_elim (v : PyValue) (h : check_for "pitch" v = .ok v) :
    ∃ p, v = .int p ∧ MIN_PITCHWHEEL ≤ p ∧ p ≤ MAX_PITCHWHEEL := by
  have h2 : (check_pitch v).map (fun _ => v) = .ok v := h
  cases hc : check_pitch v with
  | error e => rw [hc] at h2; simp [Except.map] at h2
  | ok u =>
    unfold check_pitch at hc
    cases v with
    | int p =>
      refine ⟨p, rfl, ?_⟩
      dsimp only at hc
      by_cases hb : MIN_PITCHWHEEL ≤ p ∧ p ≤ MAX_PITCHWHEEL
      · exact hb
      · rw [if_neg hb] at hc; simp at hc
    | float q => simp at hc
    | list l => simp at hc

theorem check_for_pos_elim (v : PyValue) (h : check_for "pos" v = .ok v) :
    ∃ p, v = .int p ∧ MIN_SONGPOS ≤ p ∧ p ≤ MAX_SONGPOS := by
  have h2 : (check_pos v).map (fun _ => v) = .ok v := h
  cases hc : check_pos v with
  | error e => rw [hc] at h2; simp [Except.map] at h2
  | ok u =>
    unfold check_pos at hc
    cases v with
    | int p =>
      refine ⟨p, rfl, ?_⟩
      dsimp only at hc
      by_cases hb : MIN_SONGPOS ≤ p ∧ p ≤ MAX_SONGPOS
      · exact hb
      · rw [if_neg hb] at hc; simp at hc
    | float q => simp at hc
    | list l => simp at hc

theorem check_for_databyte_elim (name : String) (v : PyValue)
    (hn : name ∉ ["time", "channel", "pos", "pitch", "data"])
    (h : check_for name v = .ok v) : ∃ i, v = .int i ∧ 0 ≤ i ∧ i ≤ 127 := by
  simp only [List.mem_cons, List.mem_singleton, not_or] at hn
  obtain ⟨hn1, hn2, hn3, hn4, hn5, -⟩ := hn
  unfold check_for at h
  rw [if_neg hn1, if_neg hn2, if_neg hn3, if_neg hn4, if_neg hn5] at h
  cases hc : check_databyte v with
  | error e => rw [hc] at h; simp [Except.map] at h
  | ok u => exact check_databyte_ok_elim v u hc

theorem check_for_data_elim (v : PyValue) (h : check_for "data" v = .ok v) :
    ∃ ds : List Int, v = .list (ds.map PyValue.int) ∧ ∀ d ∈ ds, 0 ≤ d ∧ d ≤ 127 := by
  have h2 : check_data v = .ok v := h
  cases v with
  | int i => simp [check_data] at h2
  | float q => simp [check_data] at h2
  | list l =>
    simp only [check_data] at h2
    cases hf : l.forM check_databyte with
    | error e => rw [hf] at h2; simp [Bind.bind, Except.bind] at h2
    | ok u =>
      obtain ⟨ds, rfl, hds⟩ := forM_check_databyte_elim l (by rw [hf])
      exact ⟨ds, rfl, hds⟩

/-! ### Dict shape lemmas -/

theorem dict_shape1 (d : List (String × PyValue)) (n1 : String)
    (h : d.map Prod.fst = [n1]) : ∃ v1, d = [(n1, v1)] := by
  cases d with
  | nil => simp at h
  | cons p tail =>
    obtain ⟨k, v⟩ := p
    simp only [List.map_cons, List.cons.injEq] at h
    obtain ⟨rfl, htail⟩ := h
    cases tail with
    | nil => exact ⟨v, rfl⟩
    | cons q qs => simp at htail

theorem dict_shape2 (d : List (String × PyValue)) (n1 n2 : String)
    (h : d.map Prod.fst = [n1, n2]) : ∃ v1 v2, d = [(n1, v1), (n2, v2)] := by
  cases d with
  | nil => simp at h
  | cons p tail =>
    obtain ⟨k, v⟩ := p
    simp only [List.map_cons, List.cons.injEq] at h
    obtain ⟨rfl, htail⟩ := h
    obtain ⟨v2, rfl⟩ := dict_shape1 tail n2 htail
    exact ⟨v, v2, rfl⟩

theorem dict_shape3 (d : List (String × PyValue)) (n1 n2 n3 : String)
    (h : d.map Prod.fst = [n1, n2, n3]) :
    ∃ v1 v2 v3, d = [(n1, v1), (n2, v2), (n3, v3)] := by
  cases d with
  | nil => simp at h
  | cons p tail =>
    obtain ⟨k, v⟩ := p
    simp only [List.map_cons, List.cons.injEq] at h
    obtain ⟨rfl, htail⟩ := h
    obtain ⟨v2, v3, rfl⟩ := dict_shape2 tail n2 n3 htail
    exact ⟨v, v2, v3, rfl⟩

theorem dict_shape4 (d : List (String × PyValue)) (n1 n2 n3 n4 : String)
    (h : d.map Prod.fst = [n1, n2, n3, n4]) :
    ∃ v1 v2 v3 v4, d = [(n1, v1), (n2, v2), (n3, v3), (n4, v4)] := by
  cases d with
  | nil => simp at h
  | cons p tail =>
    obtain ⟨k, v⟩ := p
    simp only [List.map_cons, List.cons.injEq] at h
    obtain ⟨rfl, htail⟩ := h
    obtain ⟨v2, v3, v4, rfl⟩ := dict_shape3 tail n2 n3 n4 htail
    exact ⟨v, v2, v3, v4, rfl⟩

/-! ### The invariant established by construction -/

theorem dictSet_keys_of_not_mem (d : List (String × PyValue)) (n : String) (v : PyValue)
    (h : n ∉ d.map Prod.fst) :
    (dictSet d n v).map Prod.fst = d.map Prod.fst ++ [n] := by
  induction d with
  | nil => rfl
  | cons head tail ih =>
    obtain ⟨k, w⟩ := head
    simp only [List.map_cons, List.mem_cons, not_or] at h
    rw [dictSet_cons_ne _ _ _ _ _ (Ne.symm h.1)]
    simp only [List.map_cons, ih h.2]
    rfl

theorem default_field_is_setattr (ty : Key) (m : Message) (name : String) :
    ∃ v, Message.default_field ty m name = m.setattr name v := by
  unfold Message.default_field
  by_cases h1 : name = "data"
  · rw [if_pos h1]
    exact ⟨.list [], by rw [h1]⟩
  · rw [if_neg h1]
    by_cases h2 : name = "channel"
    · rw [if_pos h2]
      cases ty with
      | int i => exact ⟨.int (Int.land i 0x0f), by rw [h2]⟩
      | str s => exact ⟨.int 0, by rw [h2]⟩
    · rw [if_neg h2]
      exact ⟨.int 0, rfl⟩

theorem default_fold_props :
    ∀ (names : List String) (ty : Key) (m m2 : Message),
    names.foldlM (Message.default_field ty) m = .ok m2 →
    names.Nodup →
    (∀ n ∈ names, n ∉ m.dict.map Prod.fst) →
    (∀ p ∈ m.dict, check_for p.1 p.2 = .ok p.2) →
    m2._spec = m._spec ∧ m2.type = m.type ∧
      m2.dict.map Prod.fst = m.dict.map Prod.fst ++ names ∧
      (∀ p ∈ m2.dict, check_for p.1 p.2 = .ok p.2)
  | [], _, m, m2, h, _, _, hv => by
    simp only [List.foldlM] at h
    obtain rfl : m = m2 := by injection h
    exact ⟨rfl, rfl, by simp, hv⟩
  | name :: rest, ty, m, m2, h, hnd, hfresh, hv => by
    have hfold : List.foldlM (Message.default_field ty) m (name :: rest) =
        (Message.default_field ty m name).bind
          (fun m' => List.foldlM (Message.default_field ty) m' rest) := by
      simp only [List.foldlM]
      cases Message.default_field ty m name <;> rfl
    rw [hfold] at h
    obtain ⟨v, hdv⟩ := default_field_is_setattr ty m name
    rw [hdv] at h
    cases hs : m.setattr name v with
    | error e => rw [hs] at h; simp [Except.bind] at h
    | ok m' =>
      rw [hs] at h
      simp only [Except.bind] at h
      rw [Message.setattr_ok_iff] at hs
      obtain ⟨hmem, ret, hc, rfl⟩ := hs
      obtain rfl : ret = v := check_for_ok_eq _ _ _ hc
      have hfreshname := hfresh name (List.mem_cons_self _ _)
      have hkeys' : (dictSet m.dict name ret).map Prod.fst =
          m.dict.map Prod.fst ++ [name] := dictSet_keys_of_not_mem _ _ _ hfreshname
      have ih := default_fold_props rest ty _ m2 h (List.Nodup.of_cons hnd)
        (by
          intro n hn
          rw [hkeys']
          simp only [List.mem_append, List.mem_singleton, not_or]
          refine ⟨hfresh n (List.mem_cons_of_mem _ hn), ?_⟩
          intro he
          subst he
          exact absurd hn (List.Nodup.not_mem hnd))
        (by
          intro p hp
          rcases mem_dictSet _ _ _ p hp with hp | hp
          · rw [hp]; exact hc
          · exact hv p hp)
      refine ⟨ih.1, ih.2.1, ?_, ih.2.2.2⟩
      rw [ih.2.2.1, hkeys']
      simp

theorem spec_entries_values_mem :
    ∀ e ∈ spec_entries, e.2 ∈ get_message_specs := by decide

theorem specs_arguments_nodup :
    ∀ s ∈ get_message_specs, s.arguments.Nodup ∧ "time" ∉ s.arguments := by decide

/-- Every message returned by the constructor satisfies the state
invariant. -/
theorem Message.init_WF (key : Key) (args : List (String × PyValue)) (m : Message)
    (h : Message.init key args = .ok m) : m.WF := by
  obtain ⟨spec, md, hl, hd, hf⟩ := Message.init_ok_elim key args m h
  have hspecmem : spec ∈ get_message_specs := by
    unfold _spec_lookup at hl
    cases hfind : spec_entries.find? (fun e => e.1 == key) with
    | none => rw [hfind] at hl; simp at hl
    | some e =>
      rw [hfind] at hl
      simp only [Option.map] at hl
      obtain rfl : e.2 = spec := by injection hl
      exact spec_entries_values_mem e (List.mem_of_find?_eq_some hfind)
  obtain ⟨hnd, htna⟩ := specs_arguments_nodup spec hspecmem
  have hdf := default_fold_props spec.arguments key ⟨spec, spec.type, []⟩ md hd hnd
    (by simp) (by simp)
  obtain ⟨hsp1, hty1, hk1, hv1⟩ := hdf
  dsimp only at hsp1 hty1
  simp only [List.map_nil, List.nil_append] at hk1
  have hktime : (dictSet md.dict "time" (.int 0)).map Prod.fst =
      spec.arguments ++ ["time"] := by
    rw [dictSet_keys_of_not_mem _ _ _ (by rw [hk1]; exact htna), hk1]
  have hvtime : ∀ p ∈ dictSet md.dict "time" (.int 0), check_for p.1 p.2 = .ok p.2 := by
    intro p hp
    rcases mem_dictSet _ _ _ p hp with hp | hp
    · rw [hp]; rfl
    · exact hv1 p hp
  have hff := initStep_fold_invariant args _ m hf
    (by
      intro n hn
      show n ∈ (dictSet md.dict "time" (.int 0)).map Prod.fst
      rw [hktime]
      have hn2 : n ∈ md._spec.valid_attributes := hn
      rw [hsp1] at hn2
      exact hn2)
    hvtime
  obtain ⟨hsp2, hty2, hk2, hv2⟩ := hff
  have hsp2b : m._spec = spec := by
    have h2 : m._spec = md._spec := hsp2
    rw [h2, hsp1]
  have hty2b : m.type = spec.type := by
    have h2 : m.type = md.type := hty2
    rw [h2, hty1]
  have hk2b : m.dict.map Prod.fst = spec.arguments ++ ["time"] := by
    have h2 : m.dict.map Prod.fst =
        (dictSet md.dict "time" (PyValue.int 0)).map Prod.fst := hk2
    rw [h2, hktime]
  refine ⟨?_, ?_, ?_, hv2⟩
  · rw [hsp2b]; exact hspecmem
  · rw [hty2b, hsp2b]
  · rw [hk2b, hsp2b]

/-! ### Word-level character facts for the round trip -/

theorem argWord_no_ws (name : String) (x : Int)
    (hn : ∀ c ∈ name.data, c.isWhitespace = false) :
    ∀ c ∈ name.data ++ '=' :: intRepr x, c.isWhitespace = false := by
  intro c hc
  rcases List.mem_append.mp hc with hc | hc
  · exact hn c hc
  · rcases List.mem_cons.mp hc with hc | hc
    · subst hc; decide
    · exact (intRepr_char_props x c hc).1

theorem dataWord_no_ws (ds : List Int) :
    ∀ c ∈ "data".data ++ '=' :: ('(' :: (commaJoin (ds.map intRepr) ++ [')'])),
      c.isWhitespace = false := by
  intro c hc
  rcases List.mem_append.mp hc with hc | hc
  · exact (by decide : ∀ c ∈ "data".data, c.isWhitespace = false) c hc
  · rcases List.mem_cons.mp hc with hc | hc
    · subst hc; decide
    · rcases List.mem_cons.mp hc with hc | hc
      · subst hc; decide
      · rcases List.mem_append.mp hc with hc | hc
        · rcases commaJoin_intRepr_chars ds c hc with h | h | h
          · exact isDigit_not_ws c h
          · subst h; decide
          · subst h; decide
        · rw [List.mem_singleton] at hc
          subst hc; decide

theorem forM_check_databyte_intro (ds : List Int) (h : ∀ d ∈ ds, 0 ≤ d ∧ d ≤ 127) :
    (ds.map PyValue.int).forM check_databyte = .ok () := by
  induction ds with
  | nil => rfl
  | cons d rest ih =>
    rw [List.map_cons]
    rw [show ((PyValue.int d) :: rest.map PyValue.int).forM check_databyte =
      (check_databyte (.int d) >>= fun _ => (rest.map PyValue.int).forM check_databyte)
      from rfl]
    rw [show check_databyte (.int d) = if 0 ≤ d ∧ d ≤ 127 then Except.ok ()
      else .error (.valueError "data byte must be in range 0 .. 127") from rfl]
    rw [if_pos (h d (List.mem_cons_self _ _))]
    rw [ih (fun d hd => h d (List.mem_cons_of_mem _ hd))]
    rfl

/-- C2 (amended): for every validly constructed message, except a sysex
message with empty data, formatting to text and parsing back yields a
message equal to the original under `Message.__eq__` (type and spec fields;
`time` excluded). -/
theorem text_roundtrip (key : Key) (args : List (String × PyValue)) (m : Message)
    (hinit : Message.init key args = .ok m)
    (hsys : m.type = "sysex" → pyList (m.getattr "data") ≠ []) :
    ∃ m2, text_parse (text_format m) = .ok m2 ∧ m2.eqKey = m.eqKey := by
  have hwf := Message.init_WF key args m hinit
  obtain ⟨hspec, htype, hkeys, hvals⟩ := hwf
  clear hinit
  obtain ⟨msp, mty, mdict⟩ := m
  dsimp only at hspec htype hkeys hvals hsys
  subst htype
  fin_cases hspec
  · -- note_off
    obtain ⟨v1, v2, v3, v4, rfl⟩ := dict_shape4 mdict "channel" "note" "velocity" "time" hkeys
    obtain ⟨x1, rfl, hx11, hx12⟩ := check_for_channel_elim v1 (hvals ("channel", v1) (by simp))
    obtain ⟨x2, rfl, hx21, hx22⟩ := check_for_databyte_elim "note" v2 (by decide) (hvals ("note", v2) (by simp))
    obtain ⟨x3, rfl, hx31, hx32⟩ := check_for_databyte_elim "velocity" v3 (by decide) (hvals ("velocity", v3) (by simp))
    show ∃ m2, text_parse_chars ("note_off".data ++ ' ' :: (("channel".data ++ '=' :: intRepr x1) ++ ' ' :: (("note".data ++ '=' :: intRepr x2) ++ ' ' :: ("velocity".data ++ '=' :: intRepr x3)))) = .ok m2 ∧
      m2.eqKey = (⟨⟨128, "note_off", ["channel", "note", "velocity"], some 3⟩, "note_off", [("channel", PyValue.int x1), ("note", PyValue.int x2), ("velocity", PyValue.int x3), ("time", v4)]⟩ : Message).eqKey
    unfold text_parse_chars
    rw [pySplitWs_append_word _ _ (by decide) (by decide),
      pySplitWs_append_word _ _ (argWord_no_ws "channel" x1 (by decide)) (by simp),
      pySplitWs_append_word _ _ (argWord_no_ws "note" x2 (by decide)) (by simp),
      pySplitWs_single _ (argWord_no_ws "velocity" x3 (by decide)) (by simp)]
    dsimp only
    rw [show text_parse_number ("note_off".data) = none from by decide]
    dsimp only
    unfold text_parse_body
    rw [string_mk_data]
    rw [show Message.init (Key.str "note_off") [] = .ok (⟨⟨128, "note_off", ["channel", "note", "velocity"], some 3⟩, "note_off", [("channel", PyValue.int 0), ("note", PyValue.int 0), ("velocity", PyValue.int 0), ("time", PyValue.int 0)]⟩ : Message) from by decide]
    simp only [Bind.bind, Except.bind]
    have hs1 : (⟨⟨128, "note_off", ["channel", "note", "velocity"], some 3⟩, "note_off", [("channel", PyValue.int 0), ("note", PyValue.int 0), ("velocity", PyValue.int 0), ("time", PyValue.int 0)]⟩ : Message).setattr "channel" (.int x1) = .ok (⟨⟨128, "note_off", ["channel", "note", "velocity"], some 3⟩, "note_off", [("channel", PyValue.int x1), ("note", PyValue.int 0), ("velocity", PyValue.int 0), ("time", PyValue.int 0)]⟩ : Message) :=
      Message.setattr_channel (⟨⟨128, "note_off", ["channel", "note", "velocity"], some 3⟩, "note_off", [("channel", PyValue.int 0), ("note", PyValue.int 0), ("velocity", PyValue.int 0), ("time", PyValue.int 0)]⟩ : Message) x1 (by simp [MessageSpec.valid_attributes]) hx11 hx12
    rw [text_parse_args_int_step _ _ "channel" x1 _ (by decide) (by simp) (by decide) _ hs1]
    have hs2 : (⟨⟨128, "note_off", ["channel", "note", "velocity"], some 3⟩, "note_off", [("channel", PyValue.int x1), ("note", PyValue.int 0), ("velocity", PyValue.int 0), ("time", PyValue.int 0)]⟩ : Message).setattr "note" (.int x2) = .ok (⟨⟨128, "note_off", ["channel", "note", "velocity"], some 3⟩, "note_off", [("channel", PyValue.int x1), ("note", PyValue.int x2), ("velocity", PyValue.int 0), ("time", PyValue.int 0)]⟩ : Message) :=
      Message.setattr_databyte (⟨⟨128, "note_off", ["channel", "note", "velocity"], some 3⟩, "note_off", [("channel", PyValue.int x1), ("note", PyValue.int 0), ("velocity", PyValue.int 0), ("time", PyValue.int 0)]⟩ : Message) "note" x2 (by simp [MessageSpec.valid_attributes])
        (by decide) hx21 hx22
    rw [text_parse_args_int_step _ _ "note" x2 _ (by decide) (by decide) (by decide) _ hs2]
    have hs3 : (⟨⟨128, "note_off", ["channel", "note", "velocity"], some 3⟩, "note_off", [("channel", PyValue.int x1), ("note", PyValue.int x2), ("velocity", PyValue.int 0), ("time", PyValue.int 0)]⟩ : Message).setattr "velocity" (.int x3) = .ok (⟨⟨128, "note_off", ["channel", "note", "velocity"], some 3⟩, "note_off", [("channel", PyValue.int x1), ("note", PyValue.int x2), ("velocity", PyValue.int x3), ("time", PyValue.int 0)]⟩ : Message) :=
      Message.setattr_databyte (⟨⟨128, "note_off", ["channel", "note", "velocity"], some 3⟩, "note_off", [("channel", PyValue.int x1), ("note", PyValue.int x2), ("velocity", PyValue.int 0), ("time", PyValue.int 0)]⟩ : Message) "velocity" x3 (by simp [MessageSpec.valid_attributes])
        (by decide) hx31 hx32
    rw [text_parse_args_int_step _ _ "velocity" x3 _ (by decide) (by decide) (by decide) _ hs3]
    exact ⟨(⟨⟨128, "note_off", ["channel", "note", "velocity"], some 3⟩, "note_off", [("channel", PyValue.int x1), ("note", PyValue.int x2), ("velocity", PyValue.int x3), ("time", PyValue.int 0)]⟩ : Message), rfl, rfl⟩
  · -- note_on
    obtain ⟨v1, v2, v3, v4, rfl⟩ := dict_shape4 mdict "channel" "note" "velocity" "time" hkeys
    obtain ⟨x1, rfl, hx11, hx12⟩ := check_for_channel_elim v1 (hvals ("channel", v1) (by simp))
    obtain ⟨x2, rfl, hx21, hx22⟩ := check_for_databyte_elim "note" v2 (by decide) (hvals ("note", v2) (by simp))
    obtain ⟨x3, rfl, hx31, hx32⟩ := check_for_databyte_elim "velocity" v3 (by decide) (hvals ("velocity", v3) (by simp))
    show ∃ m2, text_parse_chars ("note_on".data ++ ' ' :: (("channel".data ++ '=' :: intRepr x1) ++ ' ' :: (("note".data ++ '=' :: intRepr x2) ++ ' ' :: ("velocity".data ++ '=' :: intRepr x3)))) = .ok m2 ∧
      m2.eqKey = (⟨⟨144, "note_on", ["channel", "note", "velocity"], some 3⟩, "note_on", [("channel", PyValue.int x1), ("note", PyValue.int x2), ("velocity", PyValue.int x3), ("time", v4)]⟩ : Message).eqKey
    unfold text_parse_chars
    rw [pySplitWs_append_word _ _ (by decide) (by decide),
      pySplitWs_append_word _ _ (argWord_no_ws "channel" x1 (by decide)) (by simp),
      pySplitWs_append_word _ _ (argWord_no_ws "note" x2 (by decide)) (by simp),
      pySplitWs_single _ (argWord_no_ws "velocity" x3 (by decide)) (by simp)]
    dsimp only
    rw [show text_parse_number ("note_on".data) = none from by decide]
    dsimp only
    unfold text_parse_body
    rw [string_mk_data]
    rw [show Message.init (Key.str "note_on") [] = .ok (⟨⟨144, "note_on", ["channel", "note", "velocity"], some 3⟩, "note_on", [("channel", PyValue.int 0), ("note", PyValue.int 0), ("velocity", PyValue.int 0), ("time", PyValue.int 0)]⟩ : Message) from by decide]
    simp only [Bind.bind, Except.bind]
    have hs1 : (⟨⟨144, "note_on", ["channel", "note", "velocity"], some 3⟩, "note_on", [("channel", PyValue.int 0), ("note", PyValue.int 0), ("velocity", PyValue.int 0), ("time", PyValue.int 0)]⟩ : Message).setattr "channel" (.int x1) = .ok (⟨⟨144, "note_on", ["channel", "note", "velocity"], some 3⟩, "note_on", [("channel", PyValue.int x1), ("note", PyValue.int 0), ("velocity", PyValue.int 0), ("time", PyValue.int 0)]⟩ : Message) :=
      Message.setattr_channel (⟨⟨144, "note_on", ["channel", "note", "velocity"], some 3⟩, "note_on", [("channel", PyValue.int 0), ("note", PyValue.int 0), ("velocity", PyValue.int 0), ("time", PyValue.int 0)]⟩ : Message) x1 (by simp [MessageSpec.valid_attributes]) hx11 hx12
    rw [text_parse_args_int_step _ _ "channel" x1 _ (by decide) (by simp) (by decide) _ hs1]
    have hs2 : (⟨⟨144, "note_on", ["channel", "note", "velocity"], some 3⟩, "note_on", [("channel", PyValue.int x1), ("note", PyValue.int 0), ("velocity", PyValue.int 0), ("time", PyValue.int 0)]⟩ : Message).setattr "note" (.int x2) = .ok (⟨⟨144, "note_on", ["channel", "note", "velocity"], some 3⟩, "note_on", [("channel", PyValue.int x1), ("note", PyValue.int x2), ("velocity", PyValue.int 0), ("time", PyValue.int 0)]⟩ : Message) :=
      Message.setattr_databyte (⟨⟨144, "note_on", ["channel", "note", "velocity"], some 3⟩, "note_on", [("channel", PyValue.int x1), ("note", PyValue.int 0), ("velocity", PyValue.int 0), ("time", PyValue.int 0)]⟩ : Message) "note" x2 (by simp [MessageSpec.valid_attributes])
        (by decide) hx21 hx22
    rw [text_parse_args_int_step _ _ "note" x2 _ (by decide) (by decide) (by decide) _ hs2]
    have hs3 : (⟨⟨144, "note_on", ["channel", "note", "velocity"], some 3⟩, "note_on", [("channel", PyValue.int x1), ("note", PyValue.int x2), ("velocity", PyValue.int 0), ("time", PyValue.int 0)]⟩ : Message).setattr "velocity" (.int x3) = .ok (⟨⟨144, "note_on", ["channel", "note", "velocity"], some 3⟩, "note_on", [("channel", PyValue.int x1), ("note", PyValue.int x2), ("velocity", PyValue.int x3), ("time", PyValue.int 0)]⟩ : Message) :=
      Message.setattr_databyte (⟨⟨144, "note_on", ["channel", "note", "velocity"], some 3⟩, "note_on", [("channel", PyValue.int x1), ("note", PyValue.int x2), ("velocity", PyValue.int 0), ("time", PyValue.int 0)]⟩ : Message) "velocity" x3 (by simp [MessageSpec.valid_attributes])
        (by decide) hx31 hx32
    rw [text_parse_args_int_step _ _ "velocity" x3 _ (by decide) (by decide) (by decide) _ hs3]
    exact ⟨(⟨⟨144, "note_on", ["channel", "note", "velocity"], some 3⟩, "note_on", [("channel", PyValue.int x1), ("note", PyValue.int x2), ("velocity", PyValue.int x3), ("time", PyValue.int 0)]⟩ : Message), rfl, rfl⟩
  · -- polytouch
    obtain ⟨v1, v2, v3, v4, rfl⟩ := dict_shape4 mdict "channel" "note" "value" "time" hkeys
    obtain ⟨x1, rfl, hx11, hx12⟩ := check_for_channel_elim v1 (hvals ("channel", v1) (by simp))
    obtain ⟨x2, rfl, hx21, hx22⟩ := check_for_databyte_elim "note" v2 (by decide) (hvals ("note", v2) (by simp))
    obtain ⟨x3, rfl, hx31, hx32⟩ := check_for_databyte_elim "value" v3 (by decide) (hvals ("value", v3) (by simp))
    show ∃ m2, text_parse_chars ("polytouch".data ++ ' ' :: (("channel".data ++ '=' :: intRepr x1) ++ ' ' :: (("note".data ++ '=' :: intRepr x2) ++ ' ' :: ("value".data ++ '=' :: intRepr x3)))) = .ok m2 ∧
      m2.eqKey = (⟨⟨160, "polytouch", ["channel", "note", "value"], some 3⟩, "polytouch", [("channel", PyValue.int x1), ("note", PyValue.int x2), ("value", PyValue.int x3), ("time", v4)]⟩ : Message).eqKey
    unfold text_parse_chars
    rw [pySplitWs_append_word _ _ (by decide) (by decide),
      pySplitWs_append_word _ _ (argWord_no_ws "channel" x1 (by decide)) (by simp),
      pySplitWs_append_word _ _ (argWord_no_ws "note" x2 (by decide)) (by simp),
      pySplitWs_single _ (argWord_no_ws "value" x3 (by decide)) (by simp)]
    dsimp only
    rw [show text_parse_number ("polytouch".data) = none from by decide]
    dsimp only
    unfold text_parse_body
    rw [string_mk_data]
    rw [show Message.init (Key.str "polytouch") [] = .ok (⟨⟨160, "polytouch", ["channel", "note", "value"], some 3⟩, "polytouch", [("channel", PyValue.int 0), ("note", PyValue.int 0), ("value", PyValue.int 0), ("time", PyValue.int 0)]⟩ : Message) from by decide]
    simp only [Bind.bind, Except.bind]
    have hs1 : (⟨⟨160, "polytouch", ["channel", "note", "value"], some 3⟩, "polytouch", [("channel", PyValue.int 0), ("note", PyValue.int 0), ("value", PyValue.int 0), ("time", PyValue.int 0)]⟩ : Message).setattr "channel" (.int x1) = .ok (⟨⟨160, "polytouch", ["channel", "note", "value"], some 3⟩, "polytouch", [("channel", PyValue.int x1), ("note", PyValue.int 0), ("value", PyValue.int 0), ("time", PyValue.int 0)]⟩ : Message) :=
      Message.setattr_channel (⟨⟨160, "polytouch", ["channel", "note", "value"], some 3⟩, "polytouch", [("channel", PyValue.int 0), ("note", PyValue.int 0), ("value", PyValue.int 0), ("time", PyValue.int 0)]⟩ : Message) x1 (by simp [MessageSpec.valid_attributes]) hx11 hx12
    rw [text_parse_args_int_step _ _ "channel" x1 _ (by decide) (by simp) (by decide) _ hs1]
    have hs2 : (⟨⟨160, "polytouch", ["channel", "note", "value"], some 3⟩, "polytouch", [("channel", PyValue.int x1), ("note", PyValue.int 0), ("value", PyValue.int 0), ("time", PyValue.int 0)]⟩ : Message).setattr "note" (.int x2) = .ok (⟨⟨160, "polytouch", ["channel", "note", "value"], some 3⟩, "polytouch", [("channel", PyValue.int x1), ("note", PyValue.int x2), ("value", PyValue.int 0), ("time", PyValue.int 0)]⟩ : Message) :=
      Message.setattr_databyte (⟨⟨160, "polytouch", ["channel", "note", "value"], some 3⟩, "polytouch", [("channel", PyValue.int x1), ("note", PyValue.int 0), ("value", PyValue.int 0), ("time", PyValue.int 0)]⟩ : Message) "note" x2 (by simp [MessageSpec.valid_attributes])
        (by decide) hx21 hx22
    rw [text_parse_args_int_step _ _ "note" x2 _ (by decide) (by decide) (by decide) _ hs2]
    have hs3 : (⟨⟨160, "polytouch", ["channel", "note", "value"], some 3⟩, "polytouch", [("channel", PyValue.int x1), ("note", PyValue.int x2), ("value", PyValue.int 0), ("time", PyValue.int 0)]⟩ : Message).setattr "value" (.int x3) = .ok (⟨⟨160, "polytouch", ["channel", "note", "value"], some 3⟩, "polytouch", [("channel", PyValue.int x1), ("note", PyValue.int x2), ("value", PyValue.int x3), ("time", PyValue.int 0)]⟩ : Message) :=
      Message.setattr_databyte (⟨⟨160, "polytouch", ["channel", "note", "value"], some 3⟩, "polytouch", [("channel", PyValue.int x1), ("note", PyValue.int x2), ("value", PyValue.int 0), ("time", PyValue.int 0)]⟩ : Message) "value" x3 (by simp [MessageSpec.valid_attributes])
        (by decide) hx31 hx32
    rw [text_parse_args_int_step _ _ "value" x3 _ (by decide) (by decide) (by decide) _ hs3]
    exact ⟨(⟨⟨160, "polytouch", ["channel", "note", "value"], some 3⟩, "polytouch", [("channel", PyValue.int x1), ("note", PyValue.int x2), ("value", PyValue.int x3), ("time", PyValue.int 0)]⟩ : Message), rfl, rfl⟩
  · -- control_change
    obtain ⟨v1, v2, v3, v4, rfl⟩ := dict_shape4 mdict "channel" "control" "value" "time" hkeys
    obtain ⟨x1, rfl, hx11, hx12⟩ := check_for_channel_elim v1 (hvals ("channel", v1) (by simp))
    obtain ⟨x2, rfl, hx21, hx22⟩ := check_for_databyte_elim "control" v2 (by decide) (hvals ("control", v2) (by simp))
    obtain ⟨x3, rfl, hx31, hx32⟩ := check_for_databyte_elim "value" v3 (by decide) (hvals ("value", v3) (by simp))
    show ∃ m2, text_parse_chars ("control_change".data ++ ' ' :: (("channel".data ++ '=' :: intRepr x1) ++ ' ' :: (("control".data ++ '=' :: intRepr x2) ++ ' ' :: ("value".data ++ '=' :: intRepr x3)))) = .ok m2 ∧
      m2.eqKey = (⟨⟨176, "control_change", ["channel", "control", "value"], some 3⟩, "control_change", [("channel", PyValue.int x1), ("control", PyValue.int x2), ("value", PyValue.int x3), ("time", v4)]⟩ : Message).eqKey
    unfold text_parse_chars
    rw [pySplitWs_append_word _ _ (by decide) (by decide),
      pySplitWs_append_word _ _ (argWord_no_ws "channel" x1 (by decide)) (by simp),
      pySplitWs_append_word _ _ (argWord_no_ws "control" x2 (by decide)) (by simp),
      pySplitWs_single _ (argWord_no_ws "value" x3 (by decide)) (by simp)]
    dsimp only
    rw [show text_parse_number ("control_change".data) = none from by decide]
    dsimp only
    unfold text_parse_body
    rw [string_mk_data]
    rw [show Message.init (Key.str "control_change") [] = .ok (⟨⟨176, "control_change", ["channel", "control", "value"], some 3⟩, "control_change", [("channel", PyValue.int 0), ("control", PyValue.int 0), ("value", PyValue.int 0), ("time", PyValue.int 0)]⟩ : Message) from by decide]
    simp only [Bind.bind, Except.bind]
    have hs1 : (⟨⟨176, "control_change", ["channel", "control", "value"], some 3⟩, "control_change", [("channel", PyValue.int 0), ("control", PyValue.int 0), ("value", PyValue.int 0), ("time", PyValue.int 0)]⟩ : Message).setattr "channel" (.int x1) = .ok (⟨⟨176, "control_change", ["channel", "control", "value"], some 3⟩, "control_change", [("channel", PyValue.int x1), ("control", PyValue.int 0), ("value", PyValue.int 0), ("time", PyValue.int 0)]⟩ : Message) :=
      Message.setattr_channel (⟨⟨176, "control_change", ["channel", "control", "value"], some 3⟩, "control_change", [("channel", PyValue.int 0), ("control", PyValue.int 0), ("value", PyValue.int 0), ("time", PyValue.int 0)]⟩ : Message) x1 (by simp [MessageSpec.valid_attributes]) hx11 hx12
    rw [text_parse_args_int_step _ _ "channel" x1 _ (by decide) (by simp) (by decide) _ hs1]
    have hs2 : (⟨⟨176, "control_change", ["channel", "control", "value"], some 3⟩, "control_change", [("channel", PyValue.int x1), ("control", PyValue.int 0), ("value", PyValue.int 0), ("time", PyValue.int 0)]⟩ : Message).setattr "control" (.int x2) = .ok (⟨⟨176, "control_change", ["channel", "control", "value"], some 3⟩, "control_change", [("channel", PyValue.int x1), ("control", PyValue.int x2), ("value", PyValue.int 0), ("time", PyValue.int 0)]⟩ : Message) :=
      Message.setattr_databyte (⟨⟨176, "control_change", ["channel", "control", "value"], some 3⟩, "control_change", [("channel", PyValue.int x1), ("control", PyValue.int 0), ("value", PyValue.int 0), ("time", PyValue.int 0)]⟩ : Message) "control" x2 (by simp [MessageSpec.valid_attributes])
        (by decide) hx21 hx22
    rw [text_parse_args_int_step _ _ "control" x2 _ (by decide) (by decide) (by decide) _ hs2]
    have hs3 : (⟨⟨176, "control_change", ["channel", "control", "value"], some 3⟩, "control_change", [("channel", PyValue.int x1), ("control", PyValue.int x2), ("value", PyValue.int 0), ("time", PyValue.int 0)]⟩ : Message).setattr "value" (.int x3) = .ok (⟨⟨176, "control_change", ["channel", "control", "value"], some 3⟩, "control_change", [("channel", PyValue.int x1), ("control", PyValue.int x2), ("value", PyValue.int x3), ("time", PyValue.int 0)]⟩ : Message) :=
      Message.setattr_databyte (⟨⟨176, "control_change", ["channel", "control", "value"], some 3⟩, "control_change", [("channel", PyValue.int x1), ("control", PyValue.int x2), ("value", PyValue.int 0), ("time", PyValue.int 0)]⟩ : Message) "value" x3 (by simp [MessageSpec.valid_attributes])
        (by decide) hx31 hx32
    rw [text_parse_args_int_step _ _ "value" x3 _ (by decide) (by decide) (by decide) _ hs3]
    exact ⟨(⟨⟨176, "control_change", ["channel", "control", "value"], some 3⟩, "control_change", [("channel", PyValue.int x1), ("control", PyValue.int x2), ("value", PyValue.int x3), ("time", PyValue.int 0)]⟩ : Message), rfl, rfl⟩
  · -- program_change
    obtain ⟨v1, v2, v3, rfl⟩ := dict_shape3 mdict "channel" "program" "time" hkeys
    obtain ⟨x1, rfl, hx11, hx12⟩ := check_for_channel_elim v1 (hvals ("channel", v1) (by simp))
    obtain ⟨x2, rfl, hx21, hx22⟩ := check_for_databyte_elim "program" v2 (by decide) (hvals ("program", v2) (by simp))
    show ∃ m2, text_parse_chars ("program_change".data ++ ' ' :: (("channel".data ++ '=' :: intRepr x1) ++ ' ' :: ("program".data ++ '=' :: intRepr x2))) = .ok m2 ∧
      m2.eqKey = (⟨⟨192, "program_change", ["channel", "program"], some 3⟩, "program_change", [("channel", PyValue.int x1), ("program", PyValue.int x2), ("time", v3)]⟩ : Message).eqKey
    unfold text_parse_chars
    rw [pySplitWs_append_word _ _ (by decide) (by decide),
      pySplitWs_append_word _ _ (argWord_no_ws "channel" x1 (by decide)) (by simp),
      pySplitWs_single _ (argWord_no_ws "program" x2 (by decide)) (by simp)]
    dsimp only
    rw [show text_parse_number ("program_change".data) = none from by decide]
    dsimp only
    unfold text_parse_body
    rw [string_mk_data]
    rw [show Message.init (Key.str "program_change") [] = .ok (⟨⟨192, "program_change", ["channel", "program"], some 3⟩, "program_change", [("channel", PyValue.int 0), ("program", PyValue.int 0), ("time", PyValue.int 0)]⟩ : Message) from by decide]
    simp only [Bind.bind, Except.bind]
    have hs1 : (⟨⟨192, "program_change", ["channel", "program"], some 3⟩, "program_change", [("channel", PyValue.int 0), ("program", PyValue.int 0), ("time", PyValue.int 0)]⟩ : Message).setattr "channel" (.int x1) = .ok (⟨⟨192, "program_change", ["channel", "program"], some 3⟩, "program_change", [("channel", PyValue.int x1), ("program", PyValue.int 0), ("time", PyValue.int 0)]⟩ : Message) :=
      Message.setattr_channel (⟨⟨192, "program_change", ["channel", "program"], some 3⟩, "program_change", [("channel", PyValue.int 0), ("program", PyValue.int 0), ("time", PyValue.int 0)]⟩ : Message) x1 (by simp [MessageSpec.valid_attributes]) hx11 hx12
    rw [text_parse_args_int_step _ _ "channel" x1 _ (by decide) (by simp) (by decide) _ hs1]
    have hs2 : (⟨⟨192, "program_change", ["channel", "program"], some 3⟩, "program_change", [("channel", PyValue.int x1), ("program", PyValue.int 0), ("time", PyValue.int 0)]⟩ : Message).setattr "program" (.int x2) = .ok (⟨⟨192, "program_change", ["channel", "program"], some 3⟩, "program_change", [("channel", PyValue.int x1), ("program", PyValue.int x2), ("time", PyValue.int 0)]⟩ : Message) :=
      Message.setattr_databyte (⟨⟨192, "program_change", ["channel", "program"], some 3⟩, "program_change", [("channel", PyValue.int x1), ("program", PyValue.int 0), ("time", PyValue.int 0)]⟩ : Message) "program" x2 (by simp [MessageSpec.valid_attributes])
        (by decide) hx21 hx22
    rw [text_parse_args_int_step _ _ "program" x2 _ (by decide) (by decide) (by decide) _ hs2]
    exact ⟨(⟨⟨192, "program_change", ["channel", "program"], some 3⟩, "program_change", [("channel", PyValue.int x1), ("program", PyValue.int x2), ("time", PyValue.int 0)]⟩ : Message), rfl, rfl⟩
  · -- aftertouch
    obtain ⟨v1, v2, v3, rfl⟩ := dict_shape3 mdict "channel" "value" "time" hkeys
    obtain ⟨x1, rfl, hx11, hx12⟩ := check_for_channel_elim v1 (hvals ("channel", v1) (by simp))
    obtain ⟨x2, rfl, hx21, hx22⟩ := check_for_databyte_elim "value" v2 (by decide) (hvals ("value", v2) (by simp))
    show ∃ m2, text_parse_chars ("aftertouch".data ++ ' ' :: (("channel".data ++ '=' :: intRepr x1) ++ ' ' :: ("value".data ++ '=' :: intRepr x2))) = .ok m2 ∧
      m2.eqKey = (⟨⟨208, "aftertouch", ["channel", "value"], some 3⟩, "aftertouch", [("channel", PyValue.int x1), ("value", PyValue.int x2), ("time", v3)]⟩ : Message).eqKey
    unfold text_parse_chars
    rw [pySplitWs_append_word _ _ (by decide) (by decide),
      pySplitWs_append_word _ _ (argWord_no_ws "channel" x1 (by decide)) (by simp),
      pySplitWs_single _ (argWord_no_ws "value" x2 (by decide)) (by simp)]
    dsimp only
    rw [show text_parse_number ("aftertouch".data) = none from by decide]
    dsimp only
    unfold text_parse_body
    rw [string_mk_data]
    rw [show Message.init (Key.str "aftertouch") [] = .ok (⟨⟨208, "aftertouch", ["channel", "value"], some 3⟩, "aftertouch", [("channel", PyValue.int 0), ("value", PyValue.int 0), ("time", PyValue.int 0)]⟩ : Message) from by decide]
    simp only [Bind.bind, Except.bind]
    have hs1 : (⟨⟨208, "aftertouch", ["channel", "value"], some 3⟩, "aftertouch", [("channel", PyValue.int 0), ("value", PyValue.int 0), ("time", PyValue.int 0)]⟩ : Message).setattr "channel" (.int x1) = .ok (⟨⟨208, "aftertouch", ["channel", "value"], some 3⟩, "aftertouch", [("channel", PyValue.int x1), ("value", PyValue.int 0), ("time", PyValue.int 0)]⟩ : Message) :=
      Message.setattr_channel (⟨⟨208, "aftertouch", ["channel", "value"], some 3⟩, "aftertouch", [("channel", PyValue.int 0), ("value", PyValue.int 0), ("time", PyValue.int 0)]⟩ : Message) x1 (by simp [MessageSpec.valid_attributes]) hx11 hx12
    rw [text_parse_args_int_step _ _ "channel" x1 _ (by decide) (by simp) (by decide) _ hs1]
    have hs2 : (⟨⟨208, "aftertouch", ["channel", "value"], some 3⟩, "aftertouch", [("channel", PyValue.int x1), ("value", PyValue.int 0), ("time", PyValue.int 0)]⟩ : Message).setattr "value" (.int x2) = .ok (⟨⟨208, "aftertouch", ["channel", "value"], some 3⟩, "aftertouch", [("channel", PyValue.int x1), ("value", PyValue.int x2), ("time", PyValue.int 0)]⟩ : Message) :=
      Message.setattr_databyte (⟨⟨208, "aftertouch", ["channel", "value"], some 3⟩, "aftertouch", [("channel", PyValue.int x1), ("value", PyValue.int 0), ("time", PyValue.int 0)]⟩ : Message) "value" x2 (by simp [MessageSpec.valid_attributes])
        (by decide) hx21 hx22
    rw [text_parse_args_int_step _ _ "value" x2 _ (by decide) (by decide) (by decide) _ hs2]
    exact ⟨(⟨⟨208, "aftertouch", ["channel", "value"], some 3⟩, "aftertouch", [("channel", PyValue.int x1), ("value", PyValue.int x2), ("time", PyValue.int 0)]⟩ : Message), rfl, rfl⟩
  · -- pitchwheel
    obtain ⟨v1, v2, v3, rfl⟩ := dict_shape3 mdict "channel" "pitch" "time" hkeys
    obtain ⟨x1, rfl, hx11, hx12⟩ := check_for_channel_elim v1 (hvals ("channel", v1) (by simp))
    obtain ⟨x2, rfl, hx21, hx22⟩ := check_for_pitch_elim v2 (hvals ("pitch", v2) (by simp))
    show ∃ m2, text_parse_chars ("pitchwheel".data ++ ' ' :: (("channel".data ++ '=' :: intRepr x1) ++ ' ' :: ("pitch".data ++ '=' :: intRepr x2))) = .ok m2 ∧
      m2.eqKey = (⟨⟨224, "pitchwheel", ["channel", "pitch"], some 3⟩, "pitchwheel", [("channel", PyValue.int x1), ("pitch", PyValue.int x2), ("time", v3)]⟩ : Message).eqKey
    unfold text_parse_chars
    rw [pySplitWs_append_word _ _ (by decide) (by decide),
      pySplitWs_append_word _ _ (argWord_no_ws "channel" x1 (by decide)) (by simp),
      pySplitWs_single _ (argWord_no_ws "pitch" x2 (by decide)) (by simp)]
    dsimp only
    rw [show text_parse_number ("pitchwheel".data) = none from by decide]
    dsimp only
    unfold text_parse_body
    rw [string_mk_data]
    rw [show Message.init (Key.str "pitchwheel") [] = .ok (⟨⟨224, "pitchwheel", ["channel", "pitch"], some 3⟩, "pitchwheel", [("channel", PyValue.int 0), ("pitch", PyValue.int 0), ("time", PyValue.int 0)]⟩ : Message) from by decide]
    simp only [Bind.bind, Except.bind]
    have hs1 : (⟨⟨224, "pitchwheel", ["channel", "pitch"], some 3⟩, "pitchwheel", [("channel", PyValue.int 0), ("pitch", PyValue.int 0), ("time", PyValue.int 0)]⟩ : Message).setattr "channel" (.int x1) = .ok (⟨⟨224, "pitchwheel", ["channel", "pitch"], some 3⟩, "pitchwheel", [("channel", PyValue.int x1), ("pitch", PyValue.int 0), ("time", PyValue.int 0)]⟩ : Message) :=
      Message.setattr_channel (⟨⟨224, "pitchwheel", ["channel", "pitch"], some 3⟩, "pitchwheel", [("channel", PyValue.int 0), ("pitch", PyValue.int 0), ("time", PyValue.int 0)]⟩ : Message) x1 (by simp [MessageSpec.valid_attributes]) hx11 hx12
    rw [text_parse_args_int_step _ _ "channel" x1 _ (by decide) (by simp) (by decide) _ hs1]
    have hs2 : (⟨⟨224, "pitchwheel", ["channel", "pitch"], some 3⟩, "pitchwheel", [("channel", PyValue.int x1), ("pitch", PyValue.int 0), ("time", PyValue.int 0)]⟩ : Message).setattr "pitch" (.int x2) = .ok (⟨⟨224, "pitchwheel", ["channel", "pitch"], some 3⟩, "pitchwheel", [("channel", PyValue.int x1), ("pitch", PyValue.int x2), ("time", PyValue.int 0)]⟩ : Message) :=
      Message.setattr_pitch (⟨⟨224, "pitchwheel", ["channel", "pitch"], some 3⟩, "pitchwheel", [("channel", PyValue.int x1), ("pitch", PyValue.int 0), ("time", PyValue.int 0)]⟩ : Message) x2 (by simp [MessageSpec.valid_attributes]) hx21 hx22
    rw [text_parse_args_int_step _ _ "pitch" x2 _ (by decide) (by decide) (by decide) _ hs2]
    exact ⟨(⟨⟨224, "pitchwheel", ["channel", "pitch"], some 3⟩, "pitchwheel", [("channel", PyValue.int x1), ("pitch", PyValue.int x2), ("time", PyValue.int 0)]⟩ : Message), rfl, rfl⟩
  · -- sysex
    obtain ⟨v1, v2, rfl⟩ := dict_shape2 mdict "data" "time" hkeys
    obtain ⟨ds, rfl, hds⟩ := check_for_data_elim v1 (hvals ("data", v1) (by simp))
    have hdsne : ds ≠ [] := by
      intro he
      subst he
      exact hsys rfl rfl
    show ∃ m2, text_parse_chars ("sysex".data ++ ' ' :: ("data".data ++ '=' ::
        ('(' :: (commaJoin ((ds.map PyValue.int).map (fun b => intRepr (pyInt b))) ++ [')'])))) = .ok m2 ∧
      m2.eqKey = (⟨⟨240, "sysex", ["data"], none⟩, "sysex", [("data", PyValue.list (ds.map PyValue.int)), ("time", v2)]⟩ : Message).eqKey
    rw [show (ds.map PyValue.int).map (fun b => intRepr (pyInt b)) = ds.map intRepr from by
      rw [List.map_map]; rfl]
    unfold text_parse_chars
    rw [pySplitWs_append_word _ _ (by decide) (by decide),
      pySplitWs_single _ (dataWord_no_ws ds) (by simp)]
    dsimp only
    rw [show text_parse_number ("sysex".data) = none from by decide]
    dsimp only
    unfold text_parse_body
    rw [string_mk_data]
    rw [show Message.init (Key.str "sysex") [] = .ok (⟨⟨240, "sysex", ["data"], none⟩, "sysex", [("data", PyValue.list []), ("time", PyValue.int 0)]⟩ : Message) from by decide]
    simp only [Bind.bind, Except.bind]
    have hs1 : (⟨⟨240, "sysex", ["data"], none⟩, "sysex", [("data", PyValue.list []), ("time", PyValue.int 0)]⟩ : Message).setattr "data" (.list (ds.map PyValue.int)) = .ok (⟨⟨240, "sysex", ["data"], none⟩, "sysex", [("data", PyValue.list (ds.map PyValue.int)), ("time", PyValue.int 0)]⟩ : Message) :=
      Message.setattr_data (⟨⟨240, "sysex", ["data"], none⟩, "sysex", [("data", PyValue.list []), ("time", PyValue.int 0)]⟩ : Message) _ (by simp [MessageSpec.valid_attributes])
        (forM_check_databyte_intro ds hds)
    rw [text_parse_args_data_step _ _ ds _ (by simp) hdsne _ hs1]
    exact ⟨(⟨⟨240, "sysex", ["data"], none⟩, "sysex", [("data", PyValue.list (ds.map PyValue.int)), ("time", PyValue.int 0)]⟩ : Message), rfl, rfl⟩
  · -- undefined_f1
    obtain ⟨v1, rfl⟩ := dict_shape1 mdict "time" hkeys
    exact ⟨(⟨⟨241, "undefined_f1", [], some 1⟩, "undefined_f1", [("time", PyValue.int 0)]⟩ : Message), rfl, rfl⟩
  · -- songpos
    obtain ⟨v1, v2, rfl⟩ := dict_shape2 mdict "pos" "time" hkeys
    obtain ⟨x1, rfl, hx11, hx12⟩ := check_for_pos_elim v1 (hvals ("pos", v1) (by simp))
    show ∃ m2, text_parse_chars ("songpos".data ++ ' ' :: ("pos".data ++ '=' :: intRepr x1)) = .ok m2 ∧
      m2.eqKey = (⟨⟨242, "songpos", ["pos"], some 3⟩, "songpos", [("pos", PyValue.int x1), ("time", v2)]⟩ : Message).eqKey
    unfold text_parse_chars
    rw [pySplitWs_append_word _ _ (by decide) (by decide),
      pySplitWs_single _ (argWord_no_ws "pos" x1 (by decide)) (by simp)]
    dsimp only
    rw [show text_parse_number ("songpos".data) = none from by decide]
    dsimp only
    unfold text_parse_body
    rw [string_mk_data]
    rw [show Message.init (Key.str "songpos") [] = .ok (⟨⟨242, "songpos", ["pos"], some 3⟩, "songpos", [("pos", PyValue.int 0), ("time", PyValue.int 0)]⟩ : Message) from by decide]
    simp only [Bind.bind, Except.bind]
    have hs1 : (⟨⟨242, "songpos", ["pos"], some 3⟩, "songpos", [("pos", PyValue.int 0), ("time", PyValue.int 0)]⟩ : Message).setattr "pos" (.int x1) = .ok (⟨⟨242, "songpos", ["pos"], some 3⟩, "songpos", [("pos", PyValue.int x1), ("time", PyValue.int 0)]⟩ : Message) :=
      Message.setattr_pos (⟨⟨242, "songpos", ["pos"], some 3⟩, "songpos", [("pos", PyValue.int 0), ("time", PyValue.int 0)]⟩ : Message) x1 (by simp [MessageSpec.valid_attributes]) hx11 hx12
    rw [text_parse_args_int_step _ _ "pos" x1 _ (by decide) (by simp) (by decide) _ hs1]
    exact ⟨(⟨⟨242, "songpos", ["pos"], some 3⟩, "songpos", [("pos", PyValue.int x1), ("time", PyValue.int 0)]⟩ : Message), rfl, rfl⟩
  · -- song
    obtain ⟨v1, v2, rfl⟩ := dict_shape2 mdict "song" "time" hkeys
    obtain ⟨x1, rfl, hx11, hx12⟩ := check_for_databyte_elim "song" v1 (by decide) (hvals ("song", v1) (by simp))
    show ∃ m2, text_parse_chars ("song".data ++ ' ' :: ("song".data ++ '=' :: intRepr x1)) = .ok m2 ∧
      m2.eqKey = (⟨⟨243, "song", ["song"], some 2⟩, "song", [("song", PyValue.int x1), ("time", v2)]⟩ : Message).eqKey
    unfold text_parse_chars
    rw [pySplitWs_append_word _ _ (by decide) (by decide),
      pySplitWs_single _ (argWord_no_ws "song" x1 (by decide)) (by simp)]
    dsimp only
    rw [show text_parse_number ("song".data) = none from by decide]
    dsimp only
    unfold text_parse_body
    rw [string_mk_data]
    rw [show Message.init (Key.str "song") [] = .ok (⟨⟨243, "song", ["song"], some 2⟩, "song", [("song", PyValue.int 0), ("time", PyValue.int 0)]⟩ : Message) from by decide]
    simp only [Bind.bind, Except.bind]
    have hs1 : (⟨⟨243, "song", ["song"], some 2⟩, "song", [("song", PyValue.int 0), ("time", PyValue.int 0)]⟩ : Message).setattr "song" (.int x1) = .ok (⟨⟨243, "song", ["song"], some 2⟩, "song", [("song", PyValue.int x1), ("time", PyValue.int 0)]⟩ : Message) :=
      Message.setattr_databyte (⟨⟨243, "song", ["song"], some 2⟩, "song", [("song", PyValue.int 0), ("time", PyValue.int 0)]⟩ : Message) "song" x1 (by simp [MessageSpec.valid_attributes])
        (by decide) hx11 hx12
    rw [text_parse_args_int_step _ _ "song" x1 _ (by decide) (by simp) (by decide) _ hs1]
    exact ⟨(⟨⟨243, "song", ["song"], some 2⟩, "song", [("song", PyValue.int x1), ("time", PyValue.int 0)]⟩ : Message), rfl, rfl⟩
  · -- undefined_f4
    obtain ⟨v1, rfl⟩ := dict_shape1 mdict "time" hkeys
    exact ⟨(⟨⟨244, "undefined_f4", [], some 1⟩, "undefined_f4", [("time", PyValue.int 0)]⟩ : Message), rfl, rfl⟩
  · -- undefined_f5
    obtain ⟨v1, rfl⟩ := dict_shape1 mdict "time" hkeys
    exact ⟨(⟨⟨245, "undefined_f5", [], some 1⟩, "undefined_f5", [("time", PyValue.int 0)]⟩ : Message), rfl, rfl⟩
  · -- tune_request
    obtain ⟨v1, rfl⟩ := dict_shape1 mdict "time" hkeys
    exact ⟨(⟨⟨246, "tune_request", [], some 1⟩, "tune_request", [("time", PyValue.int 0)]⟩ : Message), rfl, rfl⟩
  · -- sysex_end
    obtain ⟨v1, rfl⟩ := dict_shape1 mdict "time" hkeys
    exact ⟨(⟨⟨247, "sysex_end", [], some 1⟩, "sysex_end", [("time", PyValue.int 0)]⟩ : Message), rfl, rfl⟩
  · -- clock
    obtain ⟨v1, rfl⟩ := dict_shape1 mdict "time" hkeys
    exact ⟨(⟨⟨248, "clock", [], some 1⟩, "clock", [("time", PyValue.int 0)]⟩ : Message), rfl, rfl⟩
  · -- undefined_f9
    obtain ⟨v1, rfl⟩ := dict_shape1 mdict "time" hkeys
    exact ⟨(⟨⟨249, "undefined_f9", [], some 1⟩, "undefined_f9", [("time", PyValue.int 0)]⟩ : Message), rfl, rfl⟩
  · -- start
    obtain ⟨v1, rfl⟩ := dict_shape1 mdict "time" hkeys
    exact ⟨(⟨⟨250, "start", [], some 1⟩, "start", [("time", PyValue.int 0)]⟩ : Message), rfl, rfl⟩
  · -- continue
    obtain ⟨v1, rfl⟩ := dict_shape1 mdict "time" hkeys
    exact ⟨(⟨⟨251, "continue", [], some 1⟩, "continue", [("time", PyValue.int 0)]⟩ : Message), rfl, rfl⟩
  · -- stop
    obtain ⟨v1, rfl⟩ := dict_shape1 mdict "time" hkeys
    exact ⟨(⟨⟨252, "stop", [], some 1⟩, "stop", [("time", PyValue.int 0)]⟩ : Message), rfl, rfl⟩
  · -- undefined_fd
    obtain ⟨v1, rfl⟩ := dict_shape1 mdict "time" hkeys
    exact ⟨(⟨⟨253, "undefined_fd", [], some 1⟩, "undefined_fd", [("time", PyValue.int 0)]⟩ : Message), rfl, rfl⟩
  · -- active_sensing
    obtain ⟨v1, rfl⟩ := dict_shape1 mdict "time" hkeys
    exact ⟨(⟨⟨254, "active_sensing", [], some 1⟩, "active_sensing", [("time", PyValue.int 0)]⟩ : Message), rfl, rfl⟩
  · -- reset
    obtain ⟨v1, rfl⟩ := dict_shape1 mdict "time" hkeys
    exact ⟨(⟨⟨255, "reset", [], some 1⟩, "reset", [("time", PyValue.int 0)]⟩ : Message), rfl, rfl⟩


/-- Witness for C2: the round trip holds for a concrete note_on message and
a concrete sysex message with nonempty data. -/
theorem text_roundtrip_witness :
    (∃ m2, text_parse (text_format (⟨⟨0x90, "note_on", ["channel", "note", "velocity"], some 3⟩,
        "note_on", [("channel", .int 3), ("note", .int 60), ("velocity", .int 32),
          ("time", .int 0)]⟩ : Message)) = .ok m2 ∧
      m2.eqKey = (⟨⟨0x90, "note_on", ["channel", "note", "velocity"], some 3⟩,
        "note_on", [("channel", .int 3), ("note", .int 60), ("velocity", .int 32),
          ("time", .int 0)]⟩ : Message).eqKey) ∧
    (∃ m2, text_parse (text_format (⟨⟨0xf0, "sysex", ["data"], none⟩,
        "sysex", [("data", .list [.int 1, .int 2]), ("time", .int 0)]⟩ : Message)) = .ok m2 ∧
      m2.eqKey = (⟨⟨0xf0, "sysex", ["data"], none⟩,
        "sysex", [("data", .list [.int 1, .int 2]), ("time", .int 0)]⟩ : Message).eqKey) :=
  ⟨text_roundtrip (Key.str "note_on")
      [("channel", .int 3), ("note", .int 60), ("velocity", .int 32)] _ (by decide) (by decide),
   text_roundtrip (Key.str "sysex") [("data", .list [.int 1, .int 2])] _ (by decide) (by decide)⟩

end Mido

